import Mathlib

/-!
# Verification of the serenity gateway decode/dispatch/apply core

Shallow embedding of the inbound event pipeline of the repository:
the cache synchronization engine (`CacheUpdate` impls in
`src/model/event.rs`), the optional-tag scanner (`src/internal/de.rs`),
the envelope decoders and the event dispatch table
(`src/model/event.rs`, `src/model/gateway.rs`).

Hash maps are embedded as association lists over `Nat` keys
(`List (Nat × β)`); `insertKey` replaces the value in place when the key
is present (as `HashMap::insert` does) and appends otherwise,
`eraseKey` removes the key, `lookupKey` finds the first binding.
`Arc<RwLock<…>>` shared cells are collapsed to their contents: the
embedding passes the whole cache state explicitly, so aliasing through a
cell and direct field access coincide.
-/

namespace Serenity

/-- Snowflake identifiers (`GuildId`, `ChannelId`, `UserId`, `MessageId`,
`RoleId` are `u64` newtypes in the source). -/
abbrev Snowflake := Nat

section AssocList

variable {β : Type}

/-- First binding of key `k`, as `HashMap::get`. -/
def lookupKey : List (Nat × β) → Nat → Option β
  | [], _ => none
  | (k1, v) :: rest, k => if k1 = k then some v else lookupKey rest k

/-- Replace the value bound to `k`, keeping the entry in place. -/
def replaceKey : List (Nat × β) → Nat → β → List (Nat × β)
  | [], _, _ => []
  | (k1, v1) :: rest, k, v =>
      if k1 = k then (k, v) :: replaceKey rest k v
      else (k1, v1) :: replaceKey rest k v

/-- `HashMap::insert`: replace when present, add otherwise. -/
def insertKey (l : List (Nat × β)) (k : Nat) (v : β) : List (Nat × β) :=
  if (lookupKey l k).isSome then replaceKey l k v else l ++ [(k, v)]

/-- `HashMap::remove` (the removed value is read off with `lookupKey`). -/
def eraseKey (l : List (Nat × β)) (k : Nat) : List (Nat × β) :=
  l.filter (fun p => decide (p.1 ≠ k))

/-- The key set, in binding order. -/
def keysOf (l : List (Nat × β)) : List Nat :=
  l.map Prod.fst

end AssocList

/-! ## Cache data model

The entity record types (`User`, `Member`, `Guild`, the channel kinds,
`Message`) are plain data carriers whose declarations live outside
`src/` (the spec marks them out of scope); their fields here are the
ones the update code in `src/model/event.rs` and the handwritten
deserializers in `src/model/gateway.rs` read and write.  Opaque
payload types (`Attachment`, embed `Value`s, timestamps, message kinds)
are collapsed to identifiers, since no specified operation inspects
them. -/

/-- Fields as read by `UserVisitor` in `src/model/gateway.rs`. -/
structure User where
  id : Snowflake
  avatar : Option String
  bot : Bool
  discriminator : Nat
  name : String
  deriving Repr, DecidableEq

/-- Fields as built by the member visitor in `src/model/event.rs`
(lines 706-771); the `Arc<RwLock<User>>` cell is collapsed. -/
structure Member where
  deaf : Bool
  guild_id : Snowflake
  joined_at : Option String
  mute : Bool
  nick : Option String
  roles : List Snowflake
  user : User
  deriving Repr, DecidableEq

/-- Modelled from the spec: guild channel fields read by
`ChannelCreateEvent::update` (`guild_id`, `id`). -/
structure GuildChannel where
  id : Snowflake
  guild_id : Snowflake
  deriving Repr, DecidableEq

/-- Modelled from the spec: the `Guild` record itself is outside `src/`;
these are the fields the cache transitions in `src/model/event.rs`
touch (`member_count`, `members`, `channels`). -/
structure Guild where
  id : Snowflake
  member_count : Nat
  members : List (Snowflake × Member)
  channels : List (Snowflake × GuildChannel)
  deriving Repr, DecidableEq

/-- Modelled from the spec: private channel fields read by
`ChannelCreateEvent::update` (`id`, `recipient`). -/
structure PrivateChannel where
  id : Snowflake
  recipient : User
  deriving Repr, DecidableEq

/-- Modelled from the spec: group fields read by
`ChannelCreateEvent::update` (`channel_id`, `recipients`). -/
structure Group where
  channel_id : Snowflake
  recipients : List (Snowflake × User)
  deriving Repr, DecidableEq

/-- Modelled from the spec: category channel identity. -/
structure CategoryChannel where
  id : Snowflake
  deriving Repr, DecidableEq

/-- The channel variants matched by the cache transitions
(`Group`, `Guild`, `Private`, `Category`). -/
inductive Channel where
  | group (g : Group)
  | guild (c : GuildChannel)
  | priv (c : PrivateChannel)
  | category (c : CategoryChannel)
  deriving Repr, DecidableEq

/-- Message fields: the stored forms of the fields
`MessageUpdateEvent` (in `src/model/event.rs`) may patch, plus the
fields that event carries but never applies.  `Message` itself is
declared outside `src/`. -/
structure Message where
  id : Snowflake
  channel_id : Snowflake
  kind : Nat
  content : String
  nonce : Option String
  tts : Bool
  pinned : Bool
  timestamp : String
  edited_timestamp : Option String
  author : User
  mention_everyone : Bool
  mentions : List User
  mention_roles : List Snowflake
  attachments : List Nat
  embeds : List Nat
  deriving Repr, DecidableEq

/-- The single configuration option the engine consumes. -/
structure Settings where
  max_messages : Nat
  deriving Repr, DecidableEq

/-- The shared cache graph (top-level maps of `Cache` as used by the
`CacheUpdate` impls in `src/model/event.rs`). -/
structure Cache where
  settings : Settings
  users : List (Snowflake × User)
  guilds : List (Snowflake × Guild)
  channels : List (Snowflake × GuildChannel)
  private_channels : List (Snowflake × PrivateChannel)
  groups : List (Snowflake × Group)
  categories : List (Snowflake × CategoryChannel)
  messages : List (Snowflake × List (Snowflake × Message))
  message_queue : List (Snowflake × List Snowflake)
  deriving Repr, DecidableEq

/-- A cache with nothing observed yet. -/
def emptyCache (maxMessages : Nat) : Cache :=
  { settings := ⟨maxMessages⟩
    users := [], guilds := [], channels := [], private_channels := []
    groups := [], categories := [], messages := [], message_queue := [] }

/-- Modelled from the spec: `Cache::update_user_entry` lives outside
`src/`; per §3 it is the single writer path for the authoritative user
cell, an upsert into the `users` table. -/
def updateUserEntry (cache : Cache) (u : User) : Cache :=
  { cache with users := insertKey cache.users u.id u }

/-! ## Cache synchronization transitions (`CacheUpdate` impls)

Each `update` mutates the cache through `&mut` access; the embedding
returns the pair `(returned value, new cache)`. -/

/-- Event carrying a created channel (`ChannelCreateEvent`). -/
structure ChannelCreateEvent where
  channel : Channel
  deriving Repr, DecidableEq

/-- `ChannelCreateEvent::update` (`src/model/event.rs` lines 67-132).
In the `Private` arm, a hit in `private_channels` returns the cached
cell untouched; otherwise the recipient is folded into the user table
before the channel is inserted.  In the `Group` arm every recipient is
folded into the user table and rebound to the authoritative cell
(rebinding is the identity here because cells are collapsed). -/
def channelCreateUpdate (ev : ChannelCreateEvent) (cache : Cache) :
    Option Channel × Cache :=
  match ev.channel with
  | .group g =>
      let cache1 := g.recipients.foldl (fun c p => updateUserEntry c p.2) cache
      let old := lookupKey cache1.groups g.channel_id
      (old.map .group,
        { cache1 with groups := insertKey cache1.groups g.channel_id g })
  | .guild c =>
      let cache1 := { cache with channels := insertKey cache.channels c.id c }
      match lookupKey cache1.guilds c.guild_id with
      | none => (none, cache1)
      | some g =>
          let old := lookupKey g.channels c.id
          let g1 : Guild := { g with channels := insertKey g.channels c.id c }
          (old.map .guild,
            { cache1 with guilds := insertKey cache1.guilds c.guild_id g1 })
  | .priv c =>
      match lookupKey cache.private_channels c.id with
      | some cached => (some (.priv cached), cache)
      | none =>
          let cache1 := updateUserEntry cache c.recipient
          (none,
            { cache1 with
                private_channels := insertKey cache1.private_channels c.id c })
  | .category c =>
      let old := lookupKey cache.categories c.id
      (old.map .category,
        { cache with categories := insertKey cache.categories c.id c })

/-- `GuildMemberRemoveEvent` payload fields used by the cache. -/
structure GuildMemberRemoveEvent where
  guild_id : Snowflake
  user : User
  deriving Repr, DecidableEq

/-- `GuildMemberRemoveEvent::update` (`src/model/event.rs` lines
562-574): when the guild is cached, `member_count` is decremented and
the member entry (if any) removed and returned. -/
def guildMemberRemoveUpdate (ev : GuildMemberRemoveEvent) (cache : Cache) :
    Option Member × Cache :=
  match lookupKey cache.guilds ev.guild_id with
  | none => (none, cache)
  | some g =>
      let removed := lookupKey g.members ev.user.id
      let g1 : Guild :=
        { g with
            member_count := g.member_count - 1
            members := eraseKey g.members ev.user.id }
      (removed, { cache with guilds := insertKey cache.guilds ev.guild_id g1 })

/-- Event carrying a created message (`MessageCreateEvent`). -/
structure MessageCreateEvent where
  message : Message
  deriving Repr, DecidableEq

/-- `MessageCreateEvent::update` (`src/model/event.rs` lines 1002-1034):
a no-op when `max_messages` is zero; otherwise the per-channel map and
queue are fetched (created empty if absent), the front of the queue is
evicted when the map is at capacity, and the new message is pushed and
inserted.  Returns the evicted message, if any. -/
def messageCreateUpdate (ev : MessageCreateEvent) (cache : Cache) :
    Option Message × Cache :=
  let max := cache.settings.max_messages
  if max = 0 then (none, cache)
  else
    let ch := ev.message.channel_id
    let messages0 := (lookupKey cache.messages ch).getD []
    let queue0 := (lookupKey cache.message_queue ch).getD []
    let step :=
      if messages0.length = max then
        match queue0 with
        | [] => (none, messages0, queue0)
        | id :: rest => (lookupKey messages0 id, eraseKey messages0 id, rest)
      else (none, messages0, queue0)
    let removedMsg := step.1
    let queue1 := step.2.2 ++ [ev.message.id]
    let messages1 := insertKey step.2.1 ev.message.id ev.message
    (removedMsg,
      { cache with
          messages := insertKey cache.messages ch messages1
          message_queue := insertKey cache.message_queue ch queue1 })

/-- `MessageUpdateEvent` (`src/model/event.rs` lines 1068-1087): every
payload field beyond the identifying pair is optional. -/
structure MessageUpdateEvent where
  id : Snowflake
  channel_id : Snowflake
  kind : Option Nat
  content : Option String
  nonce : Option String
  tts : Option Bool
  pinned : Option Bool
  timestamp : Option String
  edited_timestamp : Option String
  author : Option User
  mention_everyone : Option Bool
  mentions : Option (List User)
  mention_roles : Option (List Snowflake)
  attachments : Option (List Nat)
  embeds : Option (List Nat)
  deriving Repr, DecidableEq

/-- The in-place patch performed by `MessageUpdateEvent::update`
(`src/model/event.rs` lines 1099-1126): exactly seven fields are
conditionally overwritten; the event's `kind`, `nonce`, `tts`,
`timestamp`, `author` and `embeds` are never applied. -/
def messageUpdatePatch (ev : MessageUpdateEvent) (m : Message) : Message :=
  { m with
      attachments := ev.attachments.getD m.attachments
      content := ev.content.getD m.content
      edited_timestamp :=
        match ev.edited_timestamp with
        | some e => some e
        | none => m.edited_timestamp
      mentions := ev.mentions.getD m.mentions
      mention_everyone := ev.mention_everyone.getD m.mention_everyone
      mention_roles := ev.mention_roles.getD m.mention_roles
      pinned := ev.pinned.getD m.pinned }

/-- `MessageUpdateEvent::update` (`src/model/event.rs` lines 1089-1133):
patch the cached message in place and return a copy of its pre-patch
state; a miss on the channel or the message id is a no-op. -/
def messageUpdateUpdate (ev : MessageUpdateEvent) (cache : Cache) :
    Option Message × Cache :=
  match lookupKey cache.messages ev.channel_id with
  | none => (none, cache)
  | some messages0 =>
      match lookupKey messages0 ev.id with
      | none => (none, cache)
      | some m =>
          (some m,
            { cache with
                messages := insertKey cache.messages ev.channel_id
                  (replaceKey messages0 ev.id (messageUpdatePatch ev m)) })

/-- The patch the spec describes: *every* field present in the incoming
event overwrites the corresponding stored field (stated for comparison
with `messageUpdatePatch`, which the code actually performs). -/
def messageUpdatePatchSpec (ev : MessageUpdateEvent) (m : Message) : Message :=
  { m with
      kind := ev.kind.getD m.kind
      content := ev.content.getD m.content
      nonce :=
        match ev.nonce with
        | some n => some n
        | none => m.nonce
      tts := ev.tts.getD m.tts
      pinned := ev.pinned.getD m.pinned
      timestamp := ev.timestamp.getD m.timestamp
      edited_timestamp :=
        match ev.edited_timestamp with
        | some e => some e
        | none => m.edited_timestamp
      author := ev.author.getD m.author
      mention_everyone := ev.mention_everyone.getD m.mention_everyone
      mentions := ev.mentions.getD m.mentions
      mention_roles := ev.mention_roles.getD m.mention_roles
      attachments := ev.attachments.getD m.attachments
      embeds := ev.embeds.getD m.embeds }


/-! ## Wire format: buffered values and decode errors

`Content` embeds serde's private `Content` buffer re-exported by
`src/internal/de.rs`: the fixed-width integer constructors are
collapsed to one signed and one unsigned case, and the borrowed/owned
string split is collapsed to one constructor; the floating-point,
character and byte-buffer constructors are omitted because the JSON
transport never produces them and no specified operation consumes
them. -/
inductive Content where
  | bool (b : Bool)
  | i64 (n : Int)
  | u64 (n : Nat)
  | str (s : String)
  | none
  | some (c : Content)
  | unit
  | newtype (c : Content)
  | seq (xs : List Content)
  | map (kvs : List (Content × Content))

/-- Structured decode errors, one constructor per `serde::de::Error`
constructor the source reaches (`missing_field`, `duplicate_field`,
unknown field/variant, `invalid_value`, invalid type, `custom`). -/
inductive DeError where
  | missingField (name : String)
  | duplicateField (name : String)
  | unknownField (name : String)
  | unknownVariant (name : String)
  | invalidValue (expected : String)
  | invalidType (expected : String)
  | custom (msg : String)
  deriving Repr, DecidableEq

/-- `serde_json::Value`: the opaque payload type stored in
`UnknownEvent` and `VoiceEvent::Unknown`. -/
inductive Json where
  | null
  | bool (b : Bool)
  | num (n : Int)
  | str (s : String)
  | arr (xs : List Json)
  | obj (kvs : List (String × Json))

mutual

/-- `Value::deserialize` driven by a `ContentDeserializer`: every
JSON-shaped buffered value converts; a map key that is not a string
fails with a type error. -/
def valueOfContent : Content → Except DeError Json
  | .bool b => .ok (.bool b)
  | .i64 n => .ok (.num n)
  | .u64 n => .ok (.num (Int.ofNat n))
  | .str s => .ok (.str s)
  | .none => .ok .null
  | .some c => valueOfContent c
  | .unit => .ok .null
  | .newtype c => valueOfContent c
  | .seq xs => (valueOfContentList xs).map .arr
  | .map kvs => (valueOfContentPairs kvs).map .obj

/-- Elementwise conversion of a buffered sequence. -/
def valueOfContentList : List Content → Except DeError (List Json)
  | [] => .ok []
  | c :: cs => do
      let j ← valueOfContent c
      let js ← valueOfContentList cs
      .ok (j :: js)

/-- Entrywise conversion of a buffered map (string keys required). -/
def valueOfContentPairs :
    List (Content × Content) → Except DeError (List (String × Json))
  | [] => .ok []
  | (k, v) :: rest =>
      match k with
      | .str s => do
          let j ← valueOfContent v
          let js ← valueOfContentPairs rest
          .ok ((s, j) :: js)
      | _ => .error (.invalidType "string key")

end

/-- `bool::deserialize` from a buffered value. -/
def decodeBool : Content → Except DeError Bool
  | .bool b => .ok b
  | _ => .error (.invalidType "bool")

/-- `u64::deserialize` from a buffered value (a non-negative signed
integer is accepted, as serde's visitor does). -/
def decodeU64 : Content → Except DeError Nat
  | .u64 n => .ok n
  | .i64 n => if 0 ≤ n then .ok n.toNat else .error (.invalidType "u64")
  | _ => .error (.invalidType "u64")

/-- `String::deserialize` from a buffered value. -/
def decodeString : Content → Except DeError String
  | .str s => .ok s
  | _ => .error (.invalidType "string")

/-- `Option<String>::deserialize` via
`ContentDeserializer::deserialize_option`. -/
def decodeOptString : Content → Except DeError (Option String)
  | .none => .ok Option.none
  | .unit => .ok Option.none
  | .some c => (decodeString c).map Option.some
  | c => (decodeString c).map Option.some

/-- `Option<u64>::deserialize` via
`ContentDeserializer::deserialize_option`. -/
def decodeOptU64 : Content → Except DeError (Option Nat)
  | .none => .ok Option.none
  | .unit => .ok Option.none
  | .some c => (decodeU64 c).map Option.some
  | c => (decodeU64 c).map Option.some

/-- A buffered sequence of strings (`Vec<String>`). -/
def decodeStringList : Content → Except DeError (List String)
  | .seq xs => xs.mapM decodeString
  | _ => .error (.invalidType "sequence")

/-- A buffered sequence of unsigned integers (`Vec<u8>`/`Vec<RoleId>`). -/
def decodeU64List : Content → Except DeError (List Nat)
  | .seq xs => xs.mapM decodeU64
  | _ => .error (.invalidType "sequence")

/-- `deserialize_map`/`deserialize_struct` on a buffered value: only a
buffered map is accepted. -/
def asMapContent : Content → Except DeError (List (Content × Content))
  | .map kvs => .ok kvs
  | _ => .error (.invalidType "map")

/-- First entry with the given string key. -/
def getField (kvs : List (Content × Content)) (name : String) :
    Option Content :=
  (kvs.find? (fun p =>
    match p.1 with
    | .str s => s == name
    | _ => false)).map Prod.snd

/-- How many entries carry the given string key. -/
def fieldCount (kvs : List (Content × Content)) (name : String) : Nat :=
  (kvs.filter (fun p =>
    match p.1 with
    | .str s => s == name
    | _ => false)).length

/-- A required struct field: duplicate and missing occurrences are
decode errors naming the field; unknown sibling fields are ignored
(derived deserializers without `deny_unknown_fields`). -/
def reqField (kvs : List (Content × Content)) (name : String) :
    Except DeError Content :=
  if 2 ≤ fieldCount kvs name then .error (.duplicateField name)
  else
    match getField kvs name with
    | Option.some v => .ok v
    | Option.none => .error (.missingField name)

/-- An optional struct field (duplicates still rejected). -/
def optField (kvs : List (Content × Content)) (name : String) :
    Except DeError (Option Content) :=
  if 2 ≤ fieldCount kvs name then .error (.duplicateField name)
  else .ok (getField kvs name)

/-- Reject any key outside the allowed field set (field-identifier
enums without a catch-all variant, as in the handwritten visitors). -/
def checkKeys (allowed : List String) :
    List (Content × Content) → Except DeError Unit
  | [] => .ok ()
  | (k, _) :: rest =>
      match k with
      | .str s =>
          if s ∈ allowed then checkKeys allowed rest
          else .error (.unknownField s)
      | _ => .error (.invalidType "field identifier")

/-! ## The event dispatch vocabulary -/

/-- `EventType` (`src/model/event.rs` lines 1931-2162): the open
string-keyed enumeration of dispatch type labels. -/
inductive EventType where
  | channelCreate
  | channelDelete
  | channelPinsUpdate
  | channelRecipientAdd
  | channelRecipientRemove
  | channelUpdate
  | guildBanAdd
  | guildBanRemove
  | guildCreate
  | guildDelete
  | guildEmojisUpdate
  | guildIntegrationsUpdate
  | guildMemberAdd
  | guildMemberRemove
  | guildMemberUpdate
  | guildMembersChunk
  | guildRoleCreate
  | guildRoleDelete
  | guildRoleUpdate
  | guildUnavailable
  | guildUpdate
  | messageCreate
  | messageDelete
  | messageDeleteBulk
  | messageUpdate
  | presenceUpdate
  | presencesReplace
  | messageReactionAdd
  | messageReactionRemove
  | messageReactionRemoveAll
  | ready
  | resumed
  | typingStart
  | userUpdate
  | voiceServerUpdate
  | voiceStateUpdate
  | webhooksUpdate
  | other (s : String)
  deriving Repr, DecidableEq

/-- The label table of `EventType::deserialize`'s `visit_str` match
(`src/model/event.rs` lines 2176-2216). -/
def eventTypePairs : List (String × EventType) :=
  [("CHANNEL_CREATE", .channelCreate),
   ("CHANNEL_DELETE", .channelDelete),
   ("CHANNEL_PINS_UPDATE", .channelPinsUpdate),
   ("CHANNEL_RECIPIENT_ADD", .channelRecipientAdd),
   ("CHANNEL_RECIPIENT_REMOVE", .channelRecipientRemove),
   ("CHANNEL_UPDATE", .channelUpdate),
   ("GUILD_BAN_ADD", .guildBanAdd),
   ("GUILD_BAN_REMOVE", .guildBanRemove),
   ("GUILD_CREATE", .guildCreate),
   ("GUILD_DELETE", .guildDelete),
   ("GUILD_EMOJIS_UPDATE", .guildEmojisUpdate),
   ("GUILD_INTEGRATIONS_UPDATE", .guildIntegrationsUpdate),
   ("GUILD_MEMBER_ADD", .guildMemberAdd),
   ("GUILD_MEMBER_REMOVE", .guildMemberRemove),
   ("GUILD_MEMBER_UPDATE", .guildMemberUpdate),
   ("GUILD_MEMBERS_CHUNK", .guildMembersChunk),
   ("GUILD_ROLE_CREATE", .guildRoleCreate),
   ("GUILD_ROLE_DELETE", .guildRoleDelete),
   ("GUILD_ROLE_UPDATE", .guildRoleUpdate),
   ("GUILD_UPDATE", .guildUpdate),
   ("MESSAGE_CREATE", .messageCreate),
   ("MESSAGE_DELETE", .messageDelete),
   ("MESSAGE_DELETE_BULK", .messageDeleteBulk),
   ("MESSAGE_REACTION_ADD", .messageReactionAdd),
   ("MESSAGE_REACTION_REMOVE", .messageReactionRemove),
   ("MESSAGE_REACTION_REMOVE_ALL", .messageReactionRemoveAll),
   ("MESSAGE_UPDATE", .messageUpdate),
   ("PRESENCE_UPDATE", .presenceUpdate),
   ("PRESENCES_REPLACE", .presencesReplace),
   ("READY", .ready),
   ("RESUMED", .resumed),
   ("TYPING_START", .typingStart),
   ("USER_UPDATE", .userUpdate),
   ("VOICE_SERVER_UPDATE", .voiceServerUpdate),
   ("VOICE_STATE_UPDATE", .voiceStateUpdate),
   ("WEBHOOKS_UPDATE", .webhooksUpdate)]

/-- The closed set of recognized type-label strings. -/
def knownEventLabels : List String :=
  eventTypePairs.map Prod.fst

/-- `EventType::deserialize`'s `visit_str`: known labels map to their
variant, anything else is preserved verbatim as `Other`. -/
def eventTypeOfString (s : String) : EventType :=
  match eventTypePairs.find? (fun p => p.1 == s) with
  | Option.some p => p.2
  | Option.none => .other s

/-- `EventType::deserialize`: requires a buffered string. -/
def decodeEventType : Content → Except DeError EventType
  | .str s => .ok (eventTypeOfString s)
  | _ => .error (.invalidType "event type str")

/-- `Option<EventType>::deserialize` via
`ContentDeserializer::deserialize_option`. -/
def decodeOptEventType : Content → Except DeError (Option EventType)
  | .none => .ok Option.none
  | .unit => .ok Option.none
  | .some c => (decodeEventType c).map Option.some
  | c => (decodeEventType c).map Option.some

/-! ## Optional-tag scanner (`src/internal/de.rs` lines 502-591) -/

/-- `TagOrContent` key classification by `TagOrContentVisitor`: a
string key equal to the tag name is the tag, everything else is
buffered content. -/
def keyIsTag (tagName : String) : Content → Bool
  | .str s => s == tagName
  | _ => false

/-- The scan result: the extracted optional tag (instantiated at
`bool`, its single use) and the remaining buffered content. -/
structure OptionallyTaggedContent where
  tag : Option Bool
  content : Content

/-- The loop of `OptionallyTaggedContentVisitor::visit_map`: each key
is classified; a second tag occurrence is a duplicate-field error; the
tag's value is decoded as `bool`; all other entries are buffered in
order. -/
def optionallyTaggedGo (tagName : String) (tag : Option Bool)
    (acc : List (Content × Content)) :
    List (Content × Content) → Except DeError OptionallyTaggedContent
  | [] => .ok ⟨tag, .map acc⟩
  | (k, v) :: rest =>
      if keyIsTag tagName k then
        match tag with
        | Option.some _ => .error (.duplicateField tagName)
        | Option.none => do
            let b ← decodeBool v
            optionallyTaggedGo tagName (Option.some b) acc rest
      else
        optionallyTaggedGo tagName tag (acc ++ [(k, v)]) rest

/-- `OptionallyTaggedContentVisitor::visit_map` over a buffered map. -/
def optionallyTaggedVisitMap (tagName : String)
    (kvs : List (Content × Content)) :
    Except DeError OptionallyTaggedContent :=
  optionallyTaggedGo tagName Option.none [] kvs

/-! ## Dispatch-table events and the event seed -/

/-- `GuildUnavailableEvent` (`src/model/event.rs` lines 933-938): the
guild id is carried under the wire name `id`. -/
structure GuildUnavailableEvent where
  guild_id : Snowflake
  deriving Repr, DecidableEq

/-- The derived deserializer of `GuildUnavailableEvent`: a keyed record
whose required `id` field is the guild id; unknown fields are
ignored. -/
def decodeGuildUnavailableEvent (c : Content) :
    Except DeError GuildUnavailableEvent := do
  let kvs ← asMapContent c
  let v ← reqField kvs "id"
  let n ← decodeU64 v
  .ok ⟨n⟩

/-- `Hello` (`src/model/event.rs` lines 1477-1480). -/
structure Hello where
  heartbeat_interval : Nat
  deriving Repr, DecidableEq

/-- The derived deserializer of `Hello`. -/
def decodeHello (c : Content) : Except DeError Hello := do
  let kvs ← asMapContent c
  let v ← reqField kvs "heartbeat_interval"
  let n ← decodeU64 v
  .ok ⟨n⟩

/-- The typed `Event` produced by dispatch (`src/model/event.rs` lines
1667-1781).  The payload decoders of the individual event records are
data-carrier code outside the decode core (and, for most of them,
outside `src/`); except for `GuildUnavailableEvent`, whose wire shape
the disambiguation rule depends on, each variant is modelled as
capturing the buffered payload routed to it. -/
inductive Event where
  | channelCreate (payload : Content)
  | channelDelete (payload : Content)
  | channelPinsUpdate (payload : Content)
  | channelRecipientAdd (payload : Content)
  | channelRecipientRemove (payload : Content)
  | channelUpdate (payload : Content)
  | guildBanAdd (payload : Content)
  | guildBanRemove (payload : Content)
  | guildCreate (payload : Content)
  | guildDelete (payload : Content)
  | guildEmojisUpdate (payload : Content)
  | guildIntegrationsUpdate (payload : Content)
  | guildMemberAdd (payload : Content)
  | guildMemberRemove (payload : Content)
  | guildMemberUpdate (payload : Content)
  | guildMembersChunk (payload : Content)
  | guildRoleCreate (payload : Content)
  | guildRoleDelete (payload : Content)
  | guildRoleUpdate (payload : Content)
  | guildUnavailable (ev : GuildUnavailableEvent)
  | guildUpdate (payload : Content)
  | messageCreate (payload : Content)
  | messageDelete (payload : Content)
  | messageDeleteBulk (payload : Content)
  | messageUpdate (payload : Content)
  | presenceUpdate (payload : Content)
  | presencesReplace (payload : Content)
  | reactionAdd (payload : Content)
  | reactionRemove (payload : Content)
  | reactionRemoveAll (payload : Content)
  | ready (payload : Content)
  | resumed (payload : Content)
  | typingStart (payload : Content)
  | userUpdate (payload : Content)
  | voiceStateUpdate (payload : Content)
  | voiceServerUpdate (payload : Content)
  | webhookUpdate (payload : Content)
  | unknown (kind : String) (value : Json)

/-- `EventSeed::deserialize` (`src/model/event.rs` lines 1813-1919):
the type label selects the decode schema.  `GuildCreate` and
`GuildUnavailable` share one arm and `GuildDelete` has its own, both
running the optional-tag scan with tag name `"unavailable"` over the
buffered payload (which `deserialize_map` requires to be a map): a
present-and-true tag decodes the remaining content as
`GuildUnavailableEvent` regardless of the label; otherwise the label's
nominal schema decodes it.  An `Other` label preserves the label and
the raw payload value. -/
def eventSeedDe (eventType : EventType) (payload : Content) :
    Except DeError Event :=
  match eventType with
  | .channelCreate => .ok (.channelCreate payload)
  | .channelDelete => .ok (.channelDelete payload)
  | .channelPinsUpdate => .ok (.channelPinsUpdate payload)
  | .channelRecipientAdd => .ok (.channelRecipientAdd payload)
  | .channelRecipientRemove => .ok (.channelRecipientRemove payload)
  | .channelUpdate => .ok (.channelUpdate payload)
  | .guildBanAdd => .ok (.guildBanAdd payload)
  | .guildBanRemove => .ok (.guildBanRemove payload)
  | .guildCreate | .guildUnavailable => do
      let kvs ← asMapContent payload
      let tagged ← optionallyTaggedVisitMap "unavailable" kvs
      if tagged.tag.getD false then
        (decodeGuildUnavailableEvent tagged.content).map .guildUnavailable
      else
        .ok (.guildCreate tagged.content)
  | .guildDelete => do
      let kvs ← asMapContent payload
      let tagged ← optionallyTaggedVisitMap "unavailable" kvs
      if tagged.tag.getD false then
        (decodeGuildUnavailableEvent tagged.content).map .guildUnavailable
      else
        .ok (.guildDelete tagged.content)
  | .guildEmojisUpdate => .ok (.guildEmojisUpdate payload)
  | .guildIntegrationsUpdate => .ok (.guildIntegrationsUpdate payload)
  | .guildMemberAdd => .ok (.guildMemberAdd payload)
  | .guildMemberRemove => .ok (.guildMemberRemove payload)
  | .guildMemberUpdate => .ok (.guildMemberUpdate payload)
  | .guildMembersChunk => .ok (.guildMembersChunk payload)
  | .guildRoleCreate => .ok (.guildRoleCreate payload)
  | .guildRoleDelete => .ok (.guildRoleDelete payload)
  | .guildRoleUpdate => .ok (.guildRoleUpdate payload)
  | .guildUpdate => .ok (.guildUpdate payload)
  | .messageCreate => .ok (.messageCreate payload)
  | .messageDelete => .ok (.messageDelete payload)
  | .messageDeleteBulk => .ok (.messageDeleteBulk payload)
  | .messageUpdate => .ok (.messageUpdate payload)
  | .presenceUpdate => .ok (.presenceUpdate payload)
  | .presencesReplace => .ok (.presencesReplace payload)
  | .messageReactionAdd => .ok (.reactionAdd payload)
  | .messageReactionRemove => .ok (.reactionRemove payload)
  | .messageReactionRemoveAll => .ok (.reactionRemoveAll payload)
  | .ready => .ok (.ready payload)
  | .resumed => .ok (.resumed payload)
  | .typingStart => .ok (.typingStart payload)
  | .userUpdate => .ok (.userUpdate payload)
  | .voiceServerUpdate => .ok (.voiceServerUpdate payload)
  | .voiceStateUpdate => .ok (.voiceStateUpdate payload)
  | .webhooksUpdate => .ok (.webhookUpdate payload)
  | .other kind => (valueOfContent payload).map (fun v => .unknown kind v)

/-! ## Primary-protocol envelope -/

/-- Modelled from the spec: the primary protocol's opcode enumeration
(`OpCode` lives in the `constants` module outside `src/`); the six
inbound variants matched by `GatewayEventVisitor` plus the outbound
ones the set also carries. -/
inductive OpCode where
  | dispatch
  | heartbeat
  | identify
  | statusUpdate
  | voiceStateUpdate
  | voiceServerPing
  | resume
  | reconnect
  | requestGuildMembers
  | invalidSession
  | hello
  | heartbeatAck
  deriving Repr, DecidableEq

/-- The `Debug` name of an opcode, as interpolated into the
unknown-variant decode error. -/
def opCodeName : OpCode → String
  | .dispatch => "Dispatch"
  | .heartbeat => "Heartbeat"
  | .identify => "Identify"
  | .statusUpdate => "StatusUpdate"
  | .voiceStateUpdate => "VoiceStateUpdate"
  | .voiceServerPing => "VoiceServerPing"
  | .resume => "Resume"
  | .reconnect => "Reconnect"
  | .requestGuildMembers => "RequestGuildMembers"
  | .invalidSession => "InvalidSession"
  | .hello => "Hello"
  | .heartbeatAck => "HeartbeatAck"

/-- Modelled from the spec: the numeric opcode decoding
(`Deserialize_repr` on `OpCode`, outside `src/`). -/
def decodeOpCode (c : Content) : Except DeError OpCode := do
  let n ← decodeU64 c
  match n with
  | 0 => .ok .dispatch
  | 1 => .ok .heartbeat
  | 2 => .ok .identify
  | 3 => .ok .statusUpdate
  | 4 => .ok .voiceStateUpdate
  | 5 => .ok .voiceServerPing
  | 6 => .ok .resume
  | 7 => .ok .reconnect
  | 8 => .ok .requestGuildMembers
  | 9 => .ok .invalidSession
  | 10 => .ok .hello
  | 11 => .ok .heartbeatAck
  | _ => .error (.invalidValue "opcode")

/-- `GatewayEvent` (`src/model/event.rs` lines 1485-1495). -/
inductive GatewayEvent where
  | dispatch (s : Nat) (e : Event)
  | heartbeat (s : Nat)
  | reconnect
  | invalidSession (resumable : Bool)
  | hello (heartbeat_interval : Nat)
  | heartbeatAck

/-- `GatewayEventVisitor`'s seeded decode (`src/model/event.rs` lines
1618-1654): branch on the opcode; `Dispatch` requires the sequence and
type label and runs the event seed on the buffered payload;
`Heartbeat` requires the sequence; `InvalidSession` decodes a boolean;
`Hello` decodes the heartbeat interval; any other opcode is an
unknown-variant error naming it (the primary opcode set is closed).
The `"evnent type"` expectation string is the source's. -/
def gatewayEventSeedDe (opcode : OpCode) (sequence : Option Nat)
    (eventType : Option EventType) (data : Content) :
    Except DeError GatewayEvent :=
  match opcode with
  | .dispatch => do
      let s ← match sequence with
        | Option.some s => Except.ok s
        | Option.none => .error (.invalidValue "sequence value")
      let kind ← match eventType with
        | Option.some k => Except.ok k
        | Option.none => .error (.invalidValue "evnent type")
      let x ← eventSeedDe kind data
      .ok (.dispatch s x)
  | .heartbeat => do
      let s ← match sequence with
        | Option.some s => Except.ok s
        | Option.none => .error (.invalidValue "sequence value")
      .ok (.heartbeat s)
  | .reconnect => .ok .reconnect
  | .invalidSession => (decodeBool data).map .invalidSession
  | .hello => (decodeHello data).map (fun h => .hello h.heartbeat_interval)
  | .heartbeatAck => .ok .heartbeatAck
  | op => .error (.unknownVariant (opCodeName op))

/-- The outer envelope record (`GatewayPayload` in
`src/model/event.rs` lines 1502-1507). -/
structure GatewayPayload where
  opcode : OpCode
  data : Content
  sequence : Option Nat
  eventType : Option EventType

/-- The envelope's field identifiers (`op`, `d`, `s`, `t`). -/
inductive GatewayField where
  | op
  | d
  | s
  | t
  deriving Repr, DecidableEq

/-- The canonical wire name of an envelope field. -/
def gatewayFieldName : GatewayField → String
  | .op => "op"
  | .d => "d"
  | .s => "s"
  | .t => "t"

/-- The envelope's `Field` identifier deserializer
(`src/model/event.rs` lines 1531-1542): a string key matching one of
the four canonical names; anything else is rejected (the identifier
enum has no catch-all variant). -/
def gatewayFieldOfKey : Content → Except DeError GatewayField
  | .str s =>
      if s = "op" then .ok .op
      else if s = "d" then .ok .d
      else if s = "s" then .ok .s
      else if s = "t" then .ok .t
      else .error (.unknownField s)
  | _ => .error (.invalidType "field identifier")

/-- The final presence checks of `GatewayPayloadVisitor::visit_map`
(`src/model/event.rs` lines 1592-1597), in source order. -/
def gatewayPayloadFinish (op0 : Option OpCode) (d0 : Option Content)
    (s0 : Option (Option Nat)) (t0 : Option (Option EventType)) :
    Except DeError GatewayPayload :=
  match op0 with
  | Option.none => .error (.missingField "op")
  | Option.some op =>
      match d0 with
      | Option.none => .error (.missingField "d")
      | Option.some d =>
          match s0 with
          | Option.none => .error (.missingField "s")
          | Option.some s =>
              match t0 with
              | Option.none => .error (.missingField "t")
              | Option.some t => .ok ⟨op, d, s, t⟩

/-- The loop of `GatewayPayloadVisitor::visit_map`
(`src/model/event.rs` lines 1556-1598): each key is matched by
canonical name wherever it appears, a second occurrence of a field is
a duplicate-field error, and each value is decoded at its typed slot
(`d` is buffered verbatim). -/
def gatewayPayloadGo (op0 : Option OpCode) (d0 : Option Content)
    (s0 : Option (Option Nat)) (t0 : Option (Option EventType)) :
    List (Content × Content) → Except DeError GatewayPayload
  | [] => gatewayPayloadFinish op0 d0 s0 t0
  | (k, v) :: rest => do
      let f ← gatewayFieldOfKey k
      match f with
      | .op =>
          match op0 with
          | Option.some _ => .error (.duplicateField "op")
          | Option.none => do
              let x ← decodeOpCode v
              gatewayPayloadGo (Option.some x) d0 s0 t0 rest
      | .d =>
          match d0 with
          | Option.some _ => .error (.duplicateField "d")
          | Option.none => gatewayPayloadGo op0 (Option.some v) s0 t0 rest
      | .s =>
          match s0 with
          | Option.some _ => .error (.duplicateField "s")
          | Option.none => do
              let x ← decodeOptU64 v
              gatewayPayloadGo op0 d0 (Option.some x) t0 rest
      | .t =>
          match t0 with
          | Option.some _ => .error (.duplicateField "t")
          | Option.none => do
              let x ← decodeOptEventType v
              gatewayPayloadGo op0 d0 s0 (Option.some x) rest

/-- `GatewayPayload::deserialize` over a buffered envelope map. -/
def gatewayPayloadVisitMap (kvs : List (Content × Content)) :
    Except DeError GatewayPayload :=
  gatewayPayloadGo Option.none Option.none Option.none Option.none kvs

/-- `GatewayEvent::deserialize` (`src/model/event.rs` lines
1497-1661): decode the envelope, then run the seeded decode on the
buffered payload. -/
def gatewayEventDe (frame : Content) : Except DeError GatewayEvent := do
  let kvs ← asMapContent frame
  let p ← gatewayPayloadVisitMap kvs
  gatewayEventSeedDe p.opcode p.sequence p.eventType p.data

/-- Whether an `Except` result is a success. -/
def isOkE {ε α : Type} : Except ε α → Bool
  | .ok _ => true
  | .error _ => false

/-- An envelope entry is well formed when its key is one of the four
canonical names and its value decodes at that field's typed slot
(the buffered `d` value always does). -/
def entryValueOk (p : Content × Content) : Bool :=
  match gatewayFieldOfKey p.1 with
  | .ok .op => isOkE (decodeOpCode p.2)
  | .ok .d => true
  | .ok .s => isOkE (decodeOptU64 p.2)
  | .ok .t => isOkE (decodeOptEventType p.2)
  | .error _ => false

/-- The fields named by an envelope's keys, in order of appearance. -/
def parsedGatewayKeys (kvs : List (Content × Content)) :
    List GatewayField :=
  kvs.filterMap (fun p => (gatewayFieldOfKey p.1).toOption)

/-- The value of the first entry named `f` (matching by canonical
name, wherever the field appears). -/
def findGatewayField (kvs : List (Content × Content)) (f : GatewayField) :
    Option Content :=
  (kvs.find? (fun p =>
    match gatewayFieldOfKey p.1 with
    | .ok f2 => f2 == f
    | .error _ => false)).map Prod.snd

/-- The decoded `op` slot of an envelope. -/
def decodedOpSlot (kvs : List (Content × Content)) : Option OpCode :=
  (findGatewayField kvs .op).bind (fun c => (decodeOpCode c).toOption)

/-- The decoded `s` slot of an envelope. -/
def decodedSSlot (kvs : List (Content × Content)) : Option (Option Nat) :=
  (findGatewayField kvs .s).bind (fun c => (decodeOptU64 c).toOption)

/-- The decoded `t` slot of an envelope. -/
def decodedTSlot (kvs : List (Content × Content)) :
    Option (Option EventType) :=
  (findGatewayField kvs .t).bind (fun c => (decodeOptEventType c).toOption)

/-- Which slots of the visitor's loop state are already filled. -/
def slotFilled (op0 : Option OpCode) (d0 : Option Content)
    (s0 : Option (Option Nat)) (t0 : Option (Option EventType)) :
    GatewayField → Bool
  | .op => op0.isSome
  | .d => d0.isSome
  | .s => s0.isSome
  | .t => t0.isSome

/-! ## Secondary (voice) protocol -/

/-- Modelled from the spec: the voice opcode enumeration
(`VoiceOpCode`, `constants` module outside `src/`). -/
inductive VoiceOpCode where
  | identify
  | selectProtocol
  | ready
  | heartbeat
  | sessionDescription
  | speaking
  | heartbeatAck
  | resume
  | hello
  | resumed
  | clientConnect
  | clientDisconnect
  deriving Repr, DecidableEq

/-- Modelled from the spec: numeric voice opcode decoding
(`Deserialize_repr` outside `src/`). -/
def decodeVoiceOpCode (c : Content) : Except DeError VoiceOpCode := do
  let n ← decodeU64 c
  match n with
  | 0 => .ok .identify
  | 1 => .ok .selectProtocol
  | 2 => .ok .ready
  | 3 => .ok .heartbeat
  | 4 => .ok .sessionDescription
  | 5 => .ok .speaking
  | 6 => .ok .heartbeatAck
  | 7 => .ok .resume
  | 8 => .ok .hello
  | 9 => .ok .resumed
  | 12 => .ok .clientConnect
  | 13 => .ok .clientDisconnect
  | _ => .error (.invalidValue "voice opcode")

/-- `VoiceHeartbeatAck` (`src/model/event.rs` lines 2231-2236). -/
structure VoiceHeartbeatAck where
  nonce : Nat
  deriving Repr, DecidableEq

/-- `VoiceReady` (`src/model/event.rs` lines 2238-2247). -/
structure VoiceReady where
  heartbeat_interval : Nat
  modes : List String
  ip : String
  port : Nat
  ssrc : Nat
  deriving Repr, DecidableEq

/-- `VoiceHello` (`src/model/event.rs` lines 2249-2254). -/
structure VoiceHello where
  heartbeat_interval : Nat
  deriving Repr, DecidableEq

/-- `VoiceSessionDescription` (`src/model/event.rs` lines 2256-2262). -/
structure VoiceSessionDescription where
  mode : String
  secret_key : List Nat
  deriving Repr, DecidableEq

/-- `VoiceSpeaking` (`src/model/event.rs` lines 2264-2271). -/
structure VoiceSpeaking where
  speaking : Bool
  ssrc : Nat
  user_id : Snowflake
  deriving Repr, DecidableEq

/-- `VoiceClientConnect` (`src/model/event.rs` lines 2282-2289). -/
structure VoiceClientConnect where
  audio_ssrc : Nat
  user_id : Snowflake
  video_ssrc : Nat
  deriving Repr, DecidableEq

/-- `VoiceClientDisconnect` (`src/model/event.rs` lines 2291-2296). -/
structure VoiceClientDisconnect where
  user_id : Snowflake
  deriving Repr, DecidableEq

/-- Derived deserializer of `VoiceHeartbeatAck`. -/
def decodeVoiceHeartbeatAck (c : Content) :
    Except DeError VoiceHeartbeatAck := do
  let kvs ← asMapContent c
  let nonce ← reqField kvs "nonce" >>= decodeU64
  .ok ⟨nonce⟩

/-- Derived deserializer of `VoiceReady`. -/
def decodeVoiceReady (c : Content) : Except DeError VoiceReady := do
  let kvs ← asMapContent c
  let hi ← reqField kvs "heartbeat_interval" >>= decodeU64
  let modes ← reqField kvs "modes" >>= decodeStringList
  let ip ← reqField kvs "ip" >>= decodeString
  let port ← reqField kvs "port" >>= decodeU64
  let ssrc ← reqField kvs "ssrc" >>= decodeU64
  .ok ⟨hi, modes, ip, port, ssrc⟩

/-- Derived deserializer of `VoiceHello`. -/
def decodeVoiceHello (c : Content) : Except DeError VoiceHello := do
  let kvs ← asMapContent c
  let hi ← reqField kvs "heartbeat_interval" >>= decodeU64
  .ok ⟨hi⟩

/-- Derived deserializer of `VoiceSessionDescription`. -/
def decodeVoiceSessionDescription (c : Content) :
    Except DeError VoiceSessionDescription := do
  let kvs ← asMapContent c
  let mode ← reqField kvs "mode" >>= decodeString
  let key ← reqField kvs "secret_key" >>= decodeU64List
  .ok ⟨mode, key⟩

/-- Derived deserializer of `VoiceSpeaking`. -/
def decodeVoiceSpeaking (c : Content) : Except DeError VoiceSpeaking := do
  let kvs ← asMapContent c
  let speaking ← reqField kvs "speaking" >>= decodeBool
  let ssrc ← reqField kvs "ssrc" >>= decodeU64
  let uid ← reqField kvs "user_id" >>= decodeU64
  .ok ⟨speaking, ssrc, uid⟩

/-- Derived deserializer of `VoiceClientConnect`. -/
def decodeVoiceClientConnect (c : Content) :
    Except DeError VoiceClientConnect := do
  let kvs ← asMapContent c
  let audio ← reqField kvs "audio_ssrc" >>= decodeU64
  let uid ← reqField kvs "user_id" >>= decodeU64
  let video ← reqField kvs "video_ssrc" >>= decodeU64
  .ok ⟨audio, uid, video⟩

/-- Derived deserializer of `VoiceClientDisconnect`. -/
def decodeVoiceClientDisconnect (c : Content) :
    Except DeError VoiceClientDisconnect := do
  let kvs ← asMapContent c
  let uid ← reqField kvs "user_id" >>= decodeU64
  .ok ⟨uid⟩

/-- `VoiceEvent` (`src/model/event.rs` lines 2301-2333). -/
inductive VoiceEvent where
  | ready (v : VoiceReady)
  | sessionDescription (v : VoiceSessionDescription)
  | speaking (v : VoiceSpeaking)
  | heartbeatAck (v : VoiceHeartbeatAck)
  | hello (v : VoiceHello)
  | resumed
  | clientConnect (v : VoiceClientConnect)
  | clientDisconnect (v : VoiceClientDisconnect)
  | unknown (op : VoiceOpCode) (value : Json)

/-- `VoiceEventVisitor`'s seeded decode (`src/model/event.rs` lines
2428-2461): the eight known opcodes decode their fixed record shapes;
any other opcode decodes the raw payload as an opaque value tagged
with that opcode (the voice opcode set is open). -/
def voiceEventSeedDe (opcode : VoiceOpCode) (data : Content) :
    Except DeError VoiceEvent :=
  match opcode with
  | .heartbeatAck => (decodeVoiceHeartbeatAck data).map .heartbeatAck
  | .ready => (decodeVoiceReady data).map .ready
  | .hello => (decodeVoiceHello data).map .hello
  | .sessionDescription =>
      (decodeVoiceSessionDescription data).map .sessionDescription
  | .speaking => (decodeVoiceSpeaking data).map .speaking
  | .resumed => .ok .resumed
  | .clientConnect => (decodeVoiceClientConnect data).map .clientConnect
  | .clientDisconnect =>
      (decodeVoiceClientDisconnect data).map .clientDisconnect
  | other => (valueOfContent data).map (fun v => .unknown other v)

/-- The voice envelope's field identifiers (`op`, `d` only, lines
2363-2370); any other key is rejected. -/
def voiceFieldOfKey : Content → Except DeError GatewayField
  | .str s =>
      if s = "op" then .ok .op
      else if s = "d" then .ok .d
      else .error (.unknownField s)
  | _ => .error (.invalidType "field identifier")

/-- The loop of the voice `GatewayPayloadVisitor::visit_map`
(`src/model/event.rs` lines 2384-2410). -/
def voicePayloadGo (op0 : Option VoiceOpCode) (d0 : Option Content) :
    List (Content × Content) → Except DeError (VoiceOpCode × Content)
  | [] =>
      match op0 with
      | Option.none => .error (.missingField "op")
      | Option.some op =>
          match d0 with
          | Option.none => .error (.missingField "d")
          | Option.some d => .ok (op, d)
  | (k, v) :: rest => do
      let f ← voiceFieldOfKey k
      match f with
      | .op =>
          match op0 with
          | Option.some _ => .error (.duplicateField "op")
          | Option.none => do
              let x ← decodeVoiceOpCode v
              voicePayloadGo (Option.some x) d0 rest
      | _ =>
          match d0 with
          | Option.some _ => .error (.duplicateField "d")
          | Option.none => voicePayloadGo op0 (Option.some v) rest

/-- `VoiceEvent::deserialize` (`src/model/event.rs` lines 2335-2468). -/
def voiceEventDe (frame : Content) : Except DeError VoiceEvent := do
  let kvs ← asMapContent frame
  let p ← voicePayloadGo Option.none Option.none kvs
  voiceEventSeedDe p.1 p.2

/-! ## Bulk-member chunk: serialization vs deserialization -/

/-- `GuildMembersChunkEvent` (`src/model/event.rs` lines 635-641):
the member map is keyed by user id. -/
structure GuildMembersChunkEvent where
  guild_id : Snowflake
  members : List (Snowflake × Member)
  deriving Repr, DecidableEq

/-- Modelled from the spec: the derived `Serialize` of `User` (its
record lives outside `src/`); the display name is carried under
`username`.  `Option` fields follow the JSON wire: `Some` collapses to
the bare value and `None` becomes `null`, which re-buffers as
`Content::Unit`. -/
def serializeUser (u : User) : Content :=
  .map [(.str "id", .u64 u.id),
        (.str "avatar",
          match u.avatar with
          | Option.some s => .str s
          | Option.none => .unit),
        (.str "bot", .bool u.bot),
        (.str "discriminator", .u64 u.discriminator),
        (.str "username", .str u.name)]

/-- Modelled from the spec: the derived `Serialize` of `Member`
(outside `src/`), fields in declaration order; `Option` fields as in
`serializeUser`. -/
def serializeMember (m : Member) : Content :=
  .map [(.str "deaf", .bool m.deaf),
        (.str "guild_id", .u64 m.guild_id),
        (.str "joined_at",
          match m.joined_at with
          | Option.some s => .str s
          | Option.none => .unit),
        (.str "mute", .bool m.mute),
        (.str "nick",
          match m.nick with
          | Option.some s => .str s
          | Option.none => .unit),
        (.str "roles", .seq (m.roles.map .u64)),
        (.str "user", serializeUser m.user)]

/-- The derived `Serialize` of `GuildMembersChunkEvent`
(`src/model/event.rs` line 635): `guild_id` then `members`, and the
`HashMap<UserId, Member>` serializes as a keyed map from user id to
member — not as a sequence. -/
def serializeGuildMembersChunk (e : GuildMembersChunkEvent) : Content :=
  .map [(.str "guild_id", .u64 e.guild_id),
        (.str "members",
          .map (e.members.map (fun p => (.u64 p.1, serializeMember p.2))))]

/-- Modelled from the spec: `User::deserialize` (derived, outside
`src/`), reading the same fields `serializeUser` writes; `bot`
defaults to false. -/
def decodeUser (c : Content) : Except DeError User := do
  let kvs ← asMapContent c
  let id ← reqField kvs "id" >>= decodeU64
  let avatar ←
    match ← optField kvs "avatar" with
    | Option.some v => decodeOptString v
    | Option.none => pure Option.none
  let bot ←
    match ← optField kvs "bot" with
    | Option.some v => decodeBool v
    | Option.none => pure false
  let discriminator ← reqField kvs "discriminator" >>= decodeU64
  let name ← reqField kvs "username" >>= decodeString
  .ok ⟨id, avatar, bot, discriminator, name⟩

/-- The member element decode of the chunk's `MemberVisitor`
(`src/model/event.rs` lines 706-771), seeded with the outer guild id:
`deaf`, `joined_at`, `mute`, `roles`, `user` are required, `guild_id`
falls back to the seed, and no key outside the seven is accepted.
`joined_at` is required but nullable (its local is unwrapped with
`ok_or_else`, so `next_value` is typed at the nullable field type),
whereas `nick`'s local *is* the `Option` and is never unwrapped: a
present `nick` is read by `next_value::<String>`, so `nick: null` is a
type error — only an absent `nick` yields `None`. -/
def decodeMemberSeeded (guildId : Snowflake) (c : Content) :
    Except DeError Member := do
  let kvs ← asMapContent c
  checkKeys ["deaf", "guild_id", "joined_at", "mute", "nick", "roles",
    "user"] kvs
  let deaf ← reqField kvs "deaf" >>= decodeBool
  let gid ←
    match ← optField kvs "guild_id" with
    | Option.some v => decodeU64 v
    | Option.none => pure guildId
  let joined ← reqField kvs "joined_at" >>= decodeOptString
  let mute ← reqField kvs "mute" >>= decodeBool
  let nick ←
    match ← optField kvs "nick" with
    | Option.some v => (decodeString v).map Option.some
    | Option.none => pure Option.none
  let roles ← reqField kvs "roles" >>= decodeU64List
  let user ← reqField kvs "user" >>= decodeUser
  .ok ⟨deaf, gid, joined, mute, nick, roles, user⟩

/-- The member-sequence loop of `MemberSeqVisitor::visit_seq`
(`src/model/event.rs` lines 791-804): a duplicate user id is a custom
decode error. -/
def decodeMemberList (guildId : Snowflake)
    (acc : List (Snowflake × Member)) :
    List Content → Except DeError (List (Snowflake × Member))
  | [] => .ok acc
  | c :: rest => do
      let member ← decodeMemberSeeded guildId c
      if (lookupKey acc member.user.id).isSome then
        .error (.custom "duplicate member")
      else
        decodeMemberList guildId (acc ++ [(member.user.id, member)]) rest

/-- The `members` field re-decode (`src/model/event.rs` lines
851-855): `ContentDeserializer::deserialize_seq` requires the buffered
content to be a sequence — a buffered map is a type error. -/
def decodeMembersSeq (guildId : Snowflake) :
    Content → Except DeError (List (Snowflake × Member))
  | .seq xs => decodeMemberList guildId [] xs
  | _ => .error (.invalidType "sequence")

/-- `GuildMembersChunkEvent::deserialize` (`src/model/event.rs` lines
660-863): the outer record (fields `guild_id`, `members`, `not_found`)
is decoded field-by-field, the buffered `members` content is then
re-decoded as a member sequence seeded with the guild id. -/
def deserializeGuildMembersChunk (c : Content) :
    Except DeError GuildMembersChunkEvent := do
  let kvs ← asMapContent c
  checkKeys ["guild_id", "members", "not_found"] kvs
  let gid ← reqField kvs "guild_id" >>= decodeU64
  let membersContent ← reqField kvs "members"
  let members ← decodeMembersSeq gid membersContent
  .ok ⟨gid, members⟩

/-! ## Message-cache invariant and concrete sample data -/

/-- The per-channel message map (`cache.messages[c]`, empty if the
channel has no entry, as `entry().or_insert_with(Default::default)`
would create it). -/
def channelMessages (cache : Cache) (c : Snowflake) :
    List (Snowflake × Message) :=
  (lookupKey cache.messages c).getD []

/-- The per-channel eviction queue (`cache.message_queue[c]`). -/
def channelQueue (cache : Cache) (c : Snowflake) : List Snowflake :=
  (lookupKey cache.message_queue c).getD []

/-- Write back a channel's message map and queue (the net effect of the
`entry().or_insert_with(...)` mutations in `MessageCreateEvent::update`). -/
def setChannelMaps (cache : Cache) (ch : Snowflake)
    (msgs : List (Snowflake × Message)) (q : List Snowflake) : Cache :=
  { cache with
      messages := insertKey cache.messages ch msgs
      message_queue := insertKey cache.message_queue ch q }

/-- The bounded-cache invariant: per channel, the message map's keys
are exactly the queue in insertion order, the queue has no duplicate
ids, every cached message is keyed by its own id, and the map respects
the `max_messages` bound. -/
def MessageCacheInv (cache : Cache) : Prop :=
  ∀ c : Snowflake,
    keysOf (channelMessages cache c) = channelQueue cache c ∧
    (channelQueue cache c).Nodup ∧
    (∀ i m, lookupKey (channelMessages cache c) i = some m → m.id = i) ∧
    (channelMessages cache c).length ≤ cache.settings.max_messages

/-- Sample user for concrete scenarios. -/
def sampleUser : User :=
  { id := 100, avatar := none, bot := false, discriminator := 1, name := "u" }

/-- A second sample user, distinct from `sampleUser`. -/
def sampleUser2 : User :=
  { id := 200, avatar := none, bot := false, discriminator := 2, name := "v" }

/-- Sample message with the given id in the given channel. -/
def sampleMessage (i ch : Nat) : Message :=
  { id := i, channel_id := ch, kind := 0, content := "hello", nonce := none
    tts := false, pinned := false, timestamp := "ts", edited_timestamp := none
    author := sampleUser, mention_everyone := false, mentions := []
    mention_roles := [], attachments := [], embeds := [] }

/-- Message-create event for `sampleMessage i ch`. -/
def msgCreate (i ch : Nat) : MessageCreateEvent :=
  ⟨sampleMessage i ch⟩

/-- Apply a sequence of message-create events for ids `ids` in channel
`ch`, discarding the returned evictions. -/
def applyMessageCreates (ids : List Nat) (ch : Nat) (cache : Cache) : Cache :=
  ids.foldl (fun c i => (messageCreateUpdate (msgCreate i ch) c).2) cache

/-- A message-update event for message 7 in channel 1 whose only
present field is `tts`. -/
def msgUpdateTtsOnly : MessageUpdateEvent :=
  { id := 7, channel_id := 1, kind := none, content := none, nonce := none
    tts := some true, pinned := none, timestamp := none
    edited_timestamp := none, author := none, mention_everyone := none
    mentions := none, mention_roles := none, attachments := none
    embeds := none }

/-- A cache holding exactly `sampleMessage 7 1` in channel 1. -/
def cacheWithMsg7 : Cache :=
  { emptyCache 10 with
      messages := [(1, [(7, sampleMessage 7 1)])]
      message_queue := [(1, [7])] }

/-- Sample member record for `sampleUser` in guild 9. -/
def sampleMember : Member :=
  { deaf := false, guild_id := 9, joined_at := none, mute := false
    nick := none, roles := [], user := sampleUser }

/-- Sample guild with one member and a member count of five. -/
def sampleGuild : Guild :=
  { id := 9, member_count := 5, members := [(100, sampleMember)]
    channels := [] }

/-- A cache holding `sampleGuild` under id 9. -/
def cacheWithGuild : Cache :=
  { emptyCache 10 with guilds := [(9, sampleGuild)] }

/-- The private channel already cached under id 33. -/
def samplePrivateCached : PrivateChannel :=
  { id := 33, recipient := sampleUser }

/-- An incoming private channel with the same id but a different
recipient. -/
def samplePrivateIncoming : PrivateChannel :=
  { id := 33, recipient := sampleUser2 }

/-- A cache already holding `samplePrivateCached`. -/
def cacheWithPrivate : Cache :=
  { emptyCache 10 with private_channels := [(33, samplePrivateCached)] }

/-- A buffered guild payload carrying `unavailable: true` and `id: 42`. -/
def unavailTrueKvs : List (Content × Content) :=
  [(.str "unavailable", .bool true), (.str "id", .u64 42)]

/-- `sampleMember` with a nickname set, so its serialized form carries
`nick` as a string (a decodable member shape). -/
def sampleMemberNick : Member :=
  { sampleMember with nick := Option.some "nik" }

/-- A bulk-member chunk holding `sampleMemberNick`. -/
def sampleChunkNick : GuildMembersChunkEvent :=
  ⟨1, [(100, sampleMemberNick)]⟩

/-- `sampleChunkNick` in its wire shape: `members` as a sequence. -/
def sampleChunkWire : Content :=
  .map [(.str "guild_id", .u64 1),
        (.str "members", .seq [serializeMember sampleMemberNick])]

/-! ## Theorems -/

section AssocListLemmas

variable {β : Type}

theorem lookupKey_isSome_iff_mem_keysOf (l : List (Nat × β)) (k : Nat) :
    (lookupKey l k).isSome ↔ k ∈ keysOf l := by
  induction l with
  | nil => simp [lookupKey, keysOf]
  | cons p rest ih =>
    obtain ⟨k1, v⟩ := p
    by_cases h : k1 = k
    · subst h
      simp [lookupKey, keysOf]
    · simp only [lookupKey, if_neg h, keysOf, List.map_cons, List.mem_cons]
      rw [ih]
      simp only [keysOf]
      constructor
      · exact fun hm => Or.inr hm
      · rintro (hk | hm)
        · exact absurd hk.symm h
        · exact hm

theorem lookupKey_append (l1 l2 : List (Nat × β)) (k : Nat) :
    lookupKey (l1 ++ l2) k = ((lookupKey l1 k).or (lookupKey l2 k)) := by
  induction l1 with
  | nil => simp [lookupKey]
  | cons p rest ih =>
    obtain ⟨k1, v⟩ := p
    by_cases h : k1 = k <;> simp [lookupKey, h, ih]

theorem lookupKey_replaceKey_self (l : List (Nat × β)) (k : Nat) (v : β)
    (h : (lookupKey l k).isSome) :
    lookupKey (replaceKey l k v) k = some v := by
  induction l with
  | nil => simp [lookupKey] at h
  | cons p rest ih =>
    obtain ⟨k1, v1⟩ := p
    by_cases hk : k1 = k
    · subst hk
      simp [replaceKey, lookupKey]
    · rw [lookupKey, if_neg hk] at h
      rw [replaceKey, if_neg hk, lookupKey, if_neg hk]
      exact ih h

theorem lookupKey_replaceKey_ne (l : List (Nat × β)) (k k2 : Nat) (v : β)
    (h : k2 ≠ k) : lookupKey (replaceKey l k v) k2 = lookupKey l k2 := by
  induction l with
  | nil => simp [replaceKey, lookupKey]
  | cons p rest ih =>
    obtain ⟨k1, v1⟩ := p
    by_cases hk : k1 = k
    · subst hk
      rw [replaceKey, if_pos rfl, lookupKey, if_neg (fun hh => h hh.symm),
        lookupKey, if_neg (fun hh => h hh.symm)]
      exact ih
    · rw [replaceKey, if_neg hk, lookupKey, lookupKey]
      by_cases hk2 : k1 = k2
      · rw [if_pos hk2, if_pos hk2]
      · rw [if_neg hk2, if_neg hk2]
        exact ih

theorem lookupKey_insertKey_self (l : List (Nat × β)) (k : Nat) (v : β) :
    lookupKey (insertKey l k v) k = some v := by
  unfold insertKey
  by_cases h : (lookupKey l k).isSome
  · simpa [h] using lookupKey_replaceKey_self l k v h
  · rw [if_neg h, lookupKey_append]
    rw [Option.not_isSome_iff_eq_none] at h
    simp [h, lookupKey]

theorem lookupKey_insertKey_ne (l : List (Nat × β)) (k k2 : Nat) (v : β)
    (h : k2 ≠ k) : lookupKey (insertKey l k v) k2 = lookupKey l k2 := by
  unfold insertKey
  by_cases hs : (lookupKey l k).isSome
  · simpa [hs] using lookupKey_replaceKey_ne l k k2 v h
  · rw [if_neg hs, lookupKey_append]
    have hne : ¬ k = k2 := fun hh => h hh.symm
    simp [lookupKey, hne]

theorem insertKey_of_not_mem (l : List (Nat × β)) (k : Nat) (v : β)
    (h : k ∉ keysOf l) : insertKey l k v = l ++ [(k, v)] := by
  unfold insertKey
  rw [if_neg]
  intro hs
  exact h ((lookupKey_isSome_iff_mem_keysOf l k).mp hs)

theorem eraseKey_of_not_mem (l : List (Nat × β)) (k : Nat)
    (h : k ∉ keysOf l) : eraseKey l k = l := by
  apply List.filter_eq_self.mpr
  intro p hp
  have hm : p.1 ∈ keysOf l := List.mem_map_of_mem Prod.fst hp
  rw [decide_eq_true_eq]
  intro heq
  exact h (heq ▸ hm)

theorem eraseKey_cons_self (tl : List (Nat × β)) (k : Nat) (v : β) :
    eraseKey ((k, v) :: tl) k = eraseKey tl k := by
  simp [eraseKey]

theorem keysOf_append (l1 l2 : List (Nat × β)) :
    keysOf (l1 ++ l2) = keysOf l1 ++ keysOf l2 := by
  simp [keysOf]

end AssocListLemmas

/-! ### Message-create characterization lemmas -/

theorem messageCreateUpdate_zero (cache : Cache) (ev : MessageCreateEvent)
    (h : cache.settings.max_messages = 0) :
    messageCreateUpdate ev cache = (none, cache) := by
  simp [messageCreateUpdate, h]

theorem messageCreateUpdate_not_full (cache : Cache) (ev : MessageCreateEvent)
    (hmax : cache.settings.max_messages ≠ 0)
    (hfull : (channelMessages cache ev.message.channel_id).length ≠
      cache.settings.max_messages) :
    messageCreateUpdate ev cache =
      (none,
        setChannelMaps cache ev.message.channel_id
          (insertKey (channelMessages cache ev.message.channel_id)
            ev.message.id ev.message)
          (channelQueue cache ev.message.channel_id ++ [ev.message.id])) := by
  simp only [setChannelMaps, channelMessages, channelQueue] at hfull ⊢
  simp [messageCreateUpdate, hmax, hfull]

theorem messageCreateUpdate_full (cache : Cache) (ev : MessageCreateEvent)
    (f : Snowflake) (rest : List Snowflake)
    (hfull : (channelMessages cache ev.message.channel_id).length =
      cache.settings.max_messages)
    (hmax : cache.settings.max_messages ≠ 0)
    (hq : channelQueue cache ev.message.channel_id = f :: rest) :
    messageCreateUpdate ev cache =
      (lookupKey (channelMessages cache ev.message.channel_id) f,
        setChannelMaps cache ev.message.channel_id
          (insertKey
            (eraseKey (channelMessages cache ev.message.channel_id) f)
            ev.message.id ev.message)
          (rest ++ [ev.message.id])) := by
  simp only [setChannelMaps, channelMessages, channelQueue] at hfull hq ⊢
  simp [messageCreateUpdate, hmax, hfull, hq]

theorem channelMessages_setChannelMaps_self (cache : Cache) (ch : Snowflake)
    (X : List (Snowflake × Message)) (Y : List Snowflake) :
    channelMessages (setChannelMaps cache ch X Y) ch = X := by
  simp [channelMessages, setChannelMaps, lookupKey_insertKey_self]

theorem channelMessages_setChannelMaps_ne (cache : Cache) (ch c : Snowflake)
    (X : List (Snowflake × Message)) (Y : List Snowflake) (hc : c ≠ ch) :
    channelMessages (setChannelMaps cache ch X Y) c =
      channelMessages cache c := by
  simp [channelMessages, setChannelMaps, lookupKey_insertKey_ne _ _ _ _ hc]

theorem channelQueue_setChannelMaps_self (cache : Cache) (ch : Snowflake)
    (X : List (Snowflake × Message)) (Y : List Snowflake) :
    channelQueue (setChannelMaps cache ch X Y) ch = Y := by
  simp [channelQueue, setChannelMaps, lookupKey_insertKey_self]

theorem channelQueue_setChannelMaps_ne (cache : Cache) (ch c : Snowflake)
    (X : List (Snowflake × Message)) (Y : List Snowflake) (hc : c ≠ ch) :
    channelQueue (setChannelMaps cache ch X Y) c = channelQueue cache c := by
  simp [channelQueue, setChannelMaps, lookupKey_insertKey_ne _ _ _ _ hc]

theorem settings_setChannelMaps (cache : Cache) (ch : Snowflake)
    (X : List (Snowflake × Message)) (Y : List Snowflake) :
    (setChannelMaps cache ch X Y).settings = cache.settings := rfl

theorem lookupKey_id_consistent_append (tl : List (Snowflake × Message))
    (msg : Message) (hid : ∀ i m, lookupKey tl i = some m → m.id = i)
    (i : Snowflake) (m : Message)
    (hm : lookupKey (tl ++ [(msg.id, msg)]) i = some m) : m.id = i := by
  rw [lookupKey_append] at hm
  cases hl : lookupKey tl i with
  | some mm =>
    rw [hl] at hm
    simp only [Option.or_some, Option.some.injEq] at hm
    rw [← hm]
    exact hid i mm hl
  | none =>
    rw [hl] at hm
    simp only [Option.none_or] at hm
    rw [lookupKey] at hm
    by_cases hii : msg.id = i
    · rw [if_pos hii] at hm
      cases hm
      exact hii
    · rw [if_neg hii] at hm
      cases hm

/-- C3 (amended): the empty cache satisfies the bounded-cache
invariant, and a message-create apply whose message id is not already
in its channel's queue preserves it — in particular
`messages[c].len() <= max_messages` keeps holding for every channel —
and whenever the apply returns an evicted message, that message's id is
the front of the channel's queue before the apply (strict FIFO).
The restriction to fresh ids is forced: repeating an already-queued id
desynchronizes the queue from the map and later breaks the bound (see
the counterexample). -/
theorem C3_message_cache_invariant :
    (∀ max : Nat, MessageCacheInv (emptyCache max)) ∧
    ∀ (cache : Cache) (ev : MessageCreateEvent),
      MessageCacheInv cache →
      ev.message.id ∉ channelQueue cache ev.message.channel_id →
      MessageCacheInv (messageCreateUpdate ev cache).2 ∧
      ∀ m, (messageCreateUpdate ev cache).1 = some m →
        (channelQueue cache ev.message.channel_id).head? = some m.id := by
  constructor
  · intro max c
    refine ⟨rfl, List.nodup_nil, ?_, ?_⟩
    · intro i m hm
      simp [channelMessages, emptyCache, lookupKey] at hm
    · simp [channelMessages, emptyCache, lookupKey]
  · intro cache ev hInv hFresh
    by_cases hmax : cache.settings.max_messages = 0
    · rw [messageCreateUpdate_zero cache ev hmax]
      exact ⟨hInv, fun m hm => by simp at hm⟩
    · obtain ⟨hkeys, hnd, hid, hlen⟩ := hInv ev.message.channel_id
      by_cases hfull : (channelMessages cache ev.message.channel_id).length =
          cache.settings.max_messages
      · -- the channel is at capacity: the queue front is evicted
        have hqlen : (channelQueue cache ev.message.channel_id).length =
            cache.settings.max_messages := by
          rw [← hkeys]
          simpa [keysOf] using hfull
        obtain ⟨f, rest, hq⟩ : ∃ f rest,
            channelQueue cache ev.message.channel_id = f :: rest := by
          cases hcq : channelQueue cache ev.message.channel_id with
          | nil =>
            rw [hcq] at hqlen
            simp at hqlen
            exact absurd hqlen.symm hmax
          | cons f rest => exact ⟨f, rest, rfl⟩
        have hkeys2 : keysOf (channelMessages cache ev.message.channel_id) =
            f :: rest := hkeys.trans hq
        obtain ⟨m0, tl, hmsgs⟩ : ∃ m0 tl,
            channelMessages cache ev.message.channel_id = (f, m0) :: tl := by
          cases hms : channelMessages cache ev.message.channel_id with
          | nil =>
            rw [hms] at hkeys2
            simp [keysOf] at hkeys2
          | cons p tl =>
            obtain ⟨k1, m0⟩ := p
            rw [hms] at hkeys2
            simp only [keysOf, List.map_cons, List.cons.injEq] at hkeys2
            exact ⟨m0, tl, by rw [hkeys2.1]⟩
        have htl : keysOf tl = rest := by
          have h2 := hkeys2
          rw [hmsgs] at h2
          simp only [keysOf, List.map_cons, List.cons.injEq] at h2
          simpa [keysOf] using h2.2
        have hnd2 : (f :: rest).Nodup := hq ▸ hnd
        have hfnotin : f ∉ rest := (List.nodup_cons.mp hnd2).1
        have hndrest : rest.Nodup := (List.nodup_cons.mp hnd2).2
        have hFresh2 : ev.message.id ∉ rest := fun hm =>
          hFresh (hq ▸ List.mem_cons_of_mem f hm)
        have herase : eraseKey (channelMessages cache ev.message.channel_id) f
            = tl := by
          rw [hmsgs, eraseKey_cons_self, eraseKey_of_not_mem]
          rw [htl]
          exact hfnotin
        have hlookf : lookupKey (channelMessages cache ev.message.channel_id) f
            = some m0 := by
          rw [hmsgs]
          simp [lookupKey]
        have hidtl : ∀ i m, lookupKey tl i = some m → m.id = i := by
          intro i m hm
          have hif : i ≠ f := by
            intro he
            subst he
            have hmemi : i ∈ keysOf tl :=
              (lookupKey_isSome_iff_mem_keysOf tl i).mp (by simp [hm])
            rw [htl] at hmemi
            exact hfnotin hmemi
          apply hid i m
          rw [hmsgs, lookupKey, if_neg (fun he => hif he.symm)]
          exact hm
        have hins : insertKey
            (eraseKey (channelMessages cache ev.message.channel_id) f)
            ev.message.id ev.message
            = tl ++ [(ev.message.id, ev.message)] := by
          rw [herase]
          exact insertKey_of_not_mem _ _ _ (htl ▸ hFresh2)
        rw [messageCreateUpdate_full cache ev f rest hfull hmax hq]
        constructor
        · intro c
          rw [hins, settings_setChannelMaps]
          by_cases hc : c = ev.message.channel_id
          · subst hc
            rw [channelMessages_setChannelMaps_self,
              channelQueue_setChannelMaps_self]
            refine ⟨?_, ?_, ?_, ?_⟩
            · rw [keysOf_append, htl]
              rfl
            · simp [List.nodup_append, hndrest, hFresh2]
            · exact lookupKey_id_consistent_append tl ev.message hidtl
            · have hlen2 : tl.length + 1 = cache.settings.max_messages := by
                have h3 : (channelMessages cache ev.message.channel_id).length = tl.length + 1 := by
                  rw [hmsgs]
                  rfl
                rw [← h3]
                exact hfull
              simp only [List.length_append, List.length_cons,
                List.length_nil]
              omega
          · rw [channelMessages_setChannelMaps_ne _ _ _ _ _ hc,
              channelQueue_setChannelMaps_ne _ _ _ _ _ hc]
            exact hInv c
        · intro m hm
          rw [hlookf] at hm
          simp only [Option.some.injEq] at hm
          rw [hq]
          simp [← hm, hid f m0 hlookf]
      · -- below capacity: plain append
        have hFresh3 : ev.message.id ∉
            keysOf (channelMessages cache ev.message.channel_id) := by
          rw [hkeys]
          exact hFresh
        have hins2 : insertKey (channelMessages cache ev.message.channel_id)
            ev.message.id ev.message
            = channelMessages cache ev.message.channel_id
              ++ [(ev.message.id, ev.message)] :=
          insertKey_of_not_mem _ _ _ hFresh3
        rw [messageCreateUpdate_not_full cache ev hmax hfull]
        constructor
        · intro c
          rw [hins2, settings_setChannelMaps]
          by_cases hc : c = ev.message.channel_id
          · subst hc
            rw [channelMessages_setChannelMaps_self,
              channelQueue_setChannelMaps_self]
            refine ⟨?_, ?_, ?_, ?_⟩
            · rw [keysOf_append, hkeys]
              rfl
            · simp [List.nodup_append, hnd, hFresh]
            · exact lookupKey_id_consistent_append
                (channelMessages cache ev.message.channel_id) ev.message hid
            · simp only [List.length_append, List.length_cons,
                List.length_nil]
              have hlt : (channelMessages cache ev.message.channel_id).length <
                  cache.settings.max_messages :=
                Nat.lt_of_le_of_ne hlen hfull
              omega
          · rw [channelMessages_setChannelMaps_ne _ _ _ _ _ hc,
              channelQueue_setChannelMaps_ne _ _ _ _ _ hc]
            exact hInv c
        · intro m hm
          simp at hm

/-! ### Claim theorems for the cache engine -/

/-- C2: with `max_messages = 2` and a single channel, creating messages
1, 2, 3 in order caches exactly messages 2 and 3, the first two applies
return nothing and the third returns message 1 as the evicted value;
and with `max_messages = 0` every message-create apply returns nothing
and leaves the cache untouched. -/
theorem C2_bounded_message_cache :
    ((messageCreateUpdate (msgCreate 1 5) (emptyCache 2)).1 = none ∧
      (messageCreateUpdate (msgCreate 2 5)
        (applyMessageCreates [1] 5 (emptyCache 2))).1 = none ∧
      (messageCreateUpdate (msgCreate 3 5)
        (applyMessageCreates [1, 2] 5 (emptyCache 2))).1 =
        some (sampleMessage 1 5) ∧
      lookupKey (applyMessageCreates [1, 2, 3] 5 (emptyCache 2)).messages 5 =
        some [(2, sampleMessage 2 5), (3, sampleMessage 3 5)] ∧
      lookupKey
        (applyMessageCreates [1, 2, 3] 5 (emptyCache 2)).message_queue 5 =
        some [2, 3]) ∧
    ∀ (cache : Cache) (ev : MessageCreateEvent),
      cache.settings.max_messages = 0 →
      messageCreateUpdate ev cache = (none, cache) := by
  constructor
  · exact ⟨rfl, rfl, rfl, rfl, rfl⟩
  · intro cache ev h
    exact messageCreateUpdate_zero cache ev h

/-- Witness for C2: the zero-capacity branch at a concrete input. -/
theorem C2_bounded_message_cache_witness :
    messageCreateUpdate (msgCreate 1 5) (emptyCache 0) =
      (none, emptyCache 0) :=
  C2_bounded_message_cache.2 (emptyCache 0) (msgCreate 1 5) rfl

/-- C3 counterexample: applying creates for ids 1, 1, 2, 3, 4 with
`max_messages = 2` leaves three messages cached in the channel — the
claimed invariant `messages[c].len() <= max_messages` fails for
sequences that repeat an already-cached message id (the second create
of id 1 queues the id twice while the map keeps one entry; the
resulting eviction removes nothing from the map). -/
theorem C3_counterexample_duplicate_id :
    (emptyCache 2).settings.max_messages = 2 ∧
    (applyMessageCreates [1, 1, 2, 3, 4] 5
      (emptyCache 2)).settings.max_messages = 2 ∧
    (channelMessages (applyMessageCreates [1, 1, 2, 3, 4] 5 (emptyCache 2))
      5).length = 3 := by
  exact ⟨rfl, rfl, rfl⟩

/-- Witness for C3: one preservation step from the empty cache. -/
theorem C3_message_cache_invariant_witness :
    MessageCacheInv (messageCreateUpdate (msgCreate 1 5) (emptyCache 2)).2 :=
  (C3_message_cache_invariant.2 (emptyCache 2) (msgCreate 1 5)
    (C3_message_cache_invariant.1 2) (by decide)).1

/-- C6 counterexample: a message-update whose only present field is
`tts: Some(true)` hits a cached message with `tts = false` and leaves
the whole cache — in particular the stored `tts` — unchanged, while the
claim requires every present field to overwrite the stored one (as
`messageUpdatePatchSpec` does). -/
theorem C6_counterexample_present_field_ignored :
    msgUpdateTtsOnly.tts = some true ∧
    (messageUpdateUpdate msgUpdateTtsOnly cacheWithMsg7).2 = cacheWithMsg7 ∧
    lookupKey (channelMessages cacheWithMsg7 1) 7 =
      some (sampleMessage 7 1) ∧
    (sampleMessage 7 1).tts = false ∧
    (messageUpdatePatchSpec msgUpdateTtsOnly (sampleMessage 7 1)).tts =
      true := by
  exact ⟨rfl, rfl, rfl, rfl, rfl⟩

/-- C6 (amended): when the channel and message id are cached, the apply
returns the pre-patch copy of the message and stores
`messageUpdatePatch ev m`, which overwrites exactly the present fields
among `attachments`, `content`, `edited_timestamp`, `mentions`,
`mention_everyone`, `mention_roles`, `pinned`; absent fields — and the
event's `kind`, `nonce`, `tts`, `timestamp`, `author`, `embeds` even
when present — leave the stored values untouched. -/
theorem C6_message_update_partial_patch (cache : Cache)
    (ev : MessageUpdateEvent) (msgs : List (Snowflake × Message))
    (m : Message)
    (hch : lookupKey cache.messages ev.channel_id = some msgs)
    (hm : lookupKey msgs ev.id = some m) :
    (messageUpdateUpdate ev cache).1 = some m ∧
    lookupKey (messageUpdateUpdate ev cache).2.messages ev.channel_id =
      some (replaceKey msgs ev.id (messageUpdatePatch ev m)) ∧
    lookupKey (replaceKey msgs ev.id (messageUpdatePatch ev m)) ev.id =
      some (messageUpdatePatch ev m) ∧
    (messageUpdatePatch ev m).attachments =
      ev.attachments.getD m.attachments ∧
    (messageUpdatePatch ev m).content = ev.content.getD m.content ∧
    (messageUpdatePatch ev m).edited_timestamp =
      (match ev.edited_timestamp with
        | some e => some e
        | none => m.edited_timestamp) ∧
    (messageUpdatePatch ev m).mentions = ev.mentions.getD m.mentions ∧
    (messageUpdatePatch ev m).mention_everyone =
      ev.mention_everyone.getD m.mention_everyone ∧
    (messageUpdatePatch ev m).mention_roles =
      ev.mention_roles.getD m.mention_roles ∧
    (messageUpdatePatch ev m).pinned = ev.pinned.getD m.pinned ∧
    (messageUpdatePatch ev m).kind = m.kind ∧
    (messageUpdatePatch ev m).nonce = m.nonce ∧
    (messageUpdatePatch ev m).tts = m.tts ∧
    (messageUpdatePatch ev m).timestamp = m.timestamp ∧
    (messageUpdatePatch ev m).author = m.author ∧
    (messageUpdatePatch ev m).embeds = m.embeds := by
  refine ⟨?_, ?_, ?_, rfl, rfl, rfl, rfl, rfl, rfl, rfl, rfl, rfl, rfl,
    rfl, rfl, rfl⟩
  · simp [messageUpdateUpdate, hch, hm]
  · simp [messageUpdateUpdate, hch, hm, lookupKey_insertKey_self]
  · exact lookupKey_replaceKey_self msgs ev.id _ (by simp [hm])

/-- Witness for C6 (amended): the concrete one-message cache. -/
theorem C6_message_update_partial_patch_witness :
    (messageUpdateUpdate msgUpdateTtsOnly cacheWithMsg7).1 =
      some (sampleMessage 7 1) ∧
    (messageUpdatePatch msgUpdateTtsOnly (sampleMessage 7 1)).tts =
      (sampleMessage 7 1).tts :=
  ⟨(C6_message_update_partial_patch cacheWithMsg7 msgUpdateTtsOnly
      [(7, sampleMessage 7 1)] (sampleMessage 7 1) rfl rfl).1,
    (C6_message_update_partial_patch cacheWithMsg7 msgUpdateTtsOnly
      [(7, sampleMessage 7 1)] (sampleMessage 7 1) rfl rfl).2.2.2.2.2.2.2.2.2.2.2.2.1⟩

/-- C9: a guild-member-remove for a cached guild decrements the guild's
`member_count` by one unconditionally; when the user has no member
record the member map is untouched and the apply returns nothing — so
removing a non-member is not a pure no-op on the guild's state. -/
theorem C9_member_remove_decrements_unconditionally (cache : Cache)
    (ev : GuildMemberRemoveEvent) (g : Guild)
    (hg : lookupKey cache.guilds ev.guild_id = some g) :
    lookupKey (guildMemberRemoveUpdate ev cache).2.guilds ev.guild_id =
      some { g with
               member_count := g.member_count - 1
               members := eraseKey g.members ev.user.id } ∧
    (lookupKey g.members ev.user.id = none →
      (guildMemberRemoveUpdate ev cache).1 = none ∧
      eraseKey g.members ev.user.id = g.members) := by
  constructor
  · simp [guildMemberRemoveUpdate, hg, lookupKey_insertKey_self]
  · intro habsent
    constructor
    · simp [guildMemberRemoveUpdate, hg, habsent]
    · apply eraseKey_of_not_mem
      intro hmem
      have := (lookupKey_isSome_iff_mem_keysOf g.members ev.user.id).mpr hmem
      rw [habsent] at this
      cases this

/-- Witness for C9: removing the non-member `sampleUser2` from
`sampleGuild` (member count 5) leaves count 4, members untouched, and
returns nothing. -/
theorem C9_member_remove_witness :
    lookupKey
      (guildMemberRemoveUpdate ⟨9, sampleUser2⟩ cacheWithGuild).2.guilds 9 =
      some { sampleGuild with
               member_count := 4
               members := eraseKey sampleGuild.members 200 } :=
  (C9_member_remove_decrements_unconditionally cacheWithGuild
    ⟨9, sampleUser2⟩ sampleGuild rfl).1

/-- C10: a channel-create carrying a private channel whose id is
already in `private_channels` returns the already-cached cell and
leaves the whole cache unchanged — no insertion and no user-table
update happen. -/
theorem C10_private_channel_create_hit (cache : Cache)
    (ev : ChannelCreateEvent) (c cached : PrivateChannel)
    (hev : ev.channel = .priv c)
    (hc : lookupKey cache.private_channels c.id = some cached) :
    channelCreateUpdate ev cache = (some (.priv cached), cache) := by
  simp [channelCreateUpdate, hev, hc]

/-- Witness for C10: the cached channel, not the incoming one, is
returned and the cache is untouched. -/
theorem C10_private_channel_create_hit_witness :
    channelCreateUpdate ⟨.priv samplePrivateIncoming⟩ cacheWithPrivate =
      (some (.priv samplePrivateCached), cacheWithPrivate) :=
  C10_private_channel_create_hit cacheWithPrivate
    ⟨.priv samplePrivateIncoming⟩ samplePrivateIncoming
    samplePrivateCached rfl rfl


/-! ### Claim theorems for the decode pipeline -/

theorem exceptBind_ok {ε α β : Type} (a : α) (f : α → Except ε β) :
    (Except.ok a >>= f : Except ε β) = f a := rfl

theorem exceptBind_error {ε α β : Type} (e : ε) (f : α → Except ε β) :
    (Except.error e >>= f : Except ε β) = Except.error e := rfl

/-- C1: for dispatch labels `GUILD_CREATE`, `GUILD_UNAVAILABLE` and
`GUILD_DELETE`, the event seed runs the optional-tag scan with tag
name `"unavailable"` over the buffered payload; a present-and-true
boolean tag decodes the remaining content as `GuildUnavailableEvent`
regardless of the label, while an absent or false tag decodes the
label's nominal event (`GuildCreateEvent` for the first two labels,
`GuildDeleteEvent` for the third). -/
theorem C1_guild_unavailable_disambiguation :
    ∀ (kvs : List (Content × Content)) (tagged : OptionallyTaggedContent),
      optionallyTaggedVisitMap "unavailable" kvs = .ok tagged →
      (tagged.tag = Option.some true →
        eventSeedDe .guildCreate (.map kvs) =
          (decodeGuildUnavailableEvent tagged.content).map .guildUnavailable ∧
        eventSeedDe .guildUnavailable (.map kvs) =
          (decodeGuildUnavailableEvent tagged.content).map .guildUnavailable ∧
        eventSeedDe .guildDelete (.map kvs) =
          (decodeGuildUnavailableEvent tagged.content).map .guildUnavailable) ∧
      ((tagged.tag = Option.none ∨ tagged.tag = Option.some false) →
        eventSeedDe .guildCreate (.map kvs) =
          .ok (.guildCreate tagged.content) ∧
        eventSeedDe .guildUnavailable (.map kvs) =
          .ok (.guildCreate tagged.content) ∧
        eventSeedDe .guildDelete (.map kvs) =
          .ok (.guildDelete tagged.content)) := by
  intro kvs tagged h
  constructor
  · intro ht
    refine ⟨?_, ?_, ?_⟩ <;> simp [eventSeedDe, asMapContent, exceptBind_ok, h, ht]
  · rintro (ht | ht) <;>
      refine ⟨?_, ?_, ?_⟩ <;> simp [eventSeedDe, asMapContent, exceptBind_ok, h, ht]

/-- Witness for C1: a `GUILD_DELETE` payload with `unavailable: true`
and `id: 42` decodes to the unavailable-guild event. -/
theorem C1_guild_unavailable_disambiguation_witness :
    eventSeedDe .guildDelete (.map unavailTrueKvs) =
      .ok (.guildUnavailable ⟨42⟩) := by
  rw [((C1_guild_unavailable_disambiguation unavailTrueKvs
    ⟨Option.some true, .map [(.str "id", .u64 42)]⟩ rfl).1 rfl).2.2]
  rfl

/-- C4: a type-label string outside the known set maps to
`EventType::Other` carrying exactly that string, and dispatching it
decodes successfully to the unknown event holding the label and the
raw payload value — never a decode error. -/
theorem C4_unknown_label_forward_compatible :
    ∀ s : String, s ∉ knownEventLabels →
      eventTypeOfString s = .other s ∧
      ∀ (payload : Content) (v : Json), valueOfContent payload = .ok v →
        eventSeedDe (eventTypeOfString s) payload = .ok (.unknown s v) := by
  intro s hs
  have hfind : eventTypePairs.find? (fun p => p.1 == s) = Option.none := by
    apply List.find?_eq_none.mpr
    intro p hp hbe
    have hps : p.1 = s := by simpa using hbe
    exact hs (hps ▸ List.mem_map_of_mem Prod.fst hp)
  have hother : eventTypeOfString s = .other s := by
    simp [eventTypeOfString, hfind]
  refine ⟨hother, ?_⟩
  intro payload v hv
  rw [hother]
  simp [eventSeedDe, hv, Except.map]

/-- Witness for C4: the spec's `"SOME_FUTURE_EVENT"` label with an
empty object payload. -/
theorem C4_unknown_label_forward_compatible_witness :
    eventTypeOfString "SOME_FUTURE_EVENT" = .other "SOME_FUTURE_EVENT" ∧
    eventSeedDe (eventTypeOfString "SOME_FUTURE_EVENT") (.map []) =
      .ok (.unknown "SOME_FUTURE_EVENT" (.obj [])) :=
  ⟨(C4_unknown_label_forward_compatible "SOME_FUTURE_EVENT" (by decide)).1,
   (C4_unknown_label_forward_compatible "SOME_FUTURE_EVENT" (by decide)).2
     (.map []) (.obj []) rfl⟩

/-- C5: a primary-protocol opcode outside the recognized inbound set
(`Dispatch`, `Heartbeat`, `Reconnect`, `InvalidSession`, `Hello`,
`HeartbeatAck`) always fails with an unknown-variant error naming the
opcode — the primary set is closed — while a voice opcode outside the
eight with fixed schemas decodes to the unknown-voice-event variant
carrying the opcode and the raw payload value. -/
theorem C5_primary_closed_voice_open :
    (∀ op : OpCode,
      op ∉ [OpCode.dispatch, OpCode.heartbeat, OpCode.reconnect,
        OpCode.invalidSession, OpCode.hello, OpCode.heartbeatAck] →
      ∀ (sequence : Option Nat) (eventType : Option EventType)
        (data : Content),
        gatewayEventSeedDe op sequence eventType data =
          .error (.unknownVariant (opCodeName op))) ∧
    ∀ vop : VoiceOpCode,
      vop ∉ [VoiceOpCode.ready, VoiceOpCode.sessionDescription,
        VoiceOpCode.speaking, VoiceOpCode.heartbeatAck,
        VoiceOpCode.hello, VoiceOpCode.resumed,
        VoiceOpCode.clientConnect, VoiceOpCode.clientDisconnect] →
      ∀ (data : Content) (v : Json), valueOfContent data = .ok v →
        voiceEventSeedDe vop data = .ok (.unknown vop v) := by
  constructor
  · intro op hop sequence eventType data
    cases op <;> simp_all [gatewayEventSeedDe, opCodeName]
  · intro vop hvop data v hv
    cases vop <;> simp_all [voiceEventSeedDe, Except.map]

/-- Witness for C5: `Identify` (primary) is rejected by name;
`SelectProtocol` (voice) degrades to the unknown voice event. -/
theorem C5_primary_closed_voice_open_witness :
    gatewayEventSeedDe .identify Option.none Option.none .unit =
      .error (.unknownVariant "Identify") ∧
    voiceEventSeedDe .selectProtocol .unit =
      .ok (.unknown .selectProtocol .null) :=
  ⟨C5_primary_closed_voice_open.1 .identify (by decide)
      Option.none Option.none .unit,
   C5_primary_closed_voice_open.2 .selectProtocol (by decide) .unit
      .null rfl⟩

/-- C7: the bulk-member chunk breaks the round-trip law the spec
states for every event record type, twice over.  Its serializer writes
`members` as a map keyed by user id while its deserializer re-decodes
the buffered `members` content as a sequence, so decoding a
just-serialized chunk fails with a type error; the same chunk in its
wire shape (members as a sequence, nick a string) decodes fine, so the
two sides genuinely disagree.  Independently, a serialized member whose
`nick` is unset carries `nick: null`, which the member visitor's
`next_value::<String>` rejects — a second serializer/deserializer
mismatch on the same type. -/
theorem C7_members_chunk_roundtrip_fails :
    deserializeGuildMembersChunk
        (serializeGuildMembersChunk sampleChunkNick) =
      .error (.invalidType "sequence") ∧
    deserializeGuildMembersChunk sampleChunkWire = .ok sampleChunkNick ∧
    decodeMemberSeeded 1 (serializeMember sampleMember) =
      .error (.invalidType "string") := by
  exact ⟨rfl, rfl, rfl⟩

/-! ### Envelope decode: supporting lemmas -/

theorem parsedGatewayKeys_cons_ok (k v : Content)
    (rest : List (Content × Content)) (f : GatewayField)
    (hk : gatewayFieldOfKey k = .ok f) :
    parsedGatewayKeys ((k, v) :: rest) = f :: parsedGatewayKeys rest := by
  simp [parsedGatewayKeys, hk, Except.toOption]

theorem findGatewayField_cons_self (k v : Content)
    (rest : List (Content × Content)) (f : GatewayField)
    (hk : gatewayFieldOfKey k = .ok f) :
    findGatewayField ((k, v) :: rest) f = some v := by
  simp [findGatewayField, List.find?, hk]

theorem findGatewayField_cons_ne (k v : Content)
    (rest : List (Content × Content)) (f f2 : GatewayField)
    (hk : gatewayFieldOfKey k = .ok f) (hne : f2 ≠ f) :
    findGatewayField ((k, v) :: rest) f2 = findGatewayField rest f2 := by
  have hbe : (f == f2) = false := by
    simp
    intro he
    exact absurd he.symm hne
  simp [findGatewayField, List.find?, hk, hbe]

theorem findGatewayField_cons_err (k v : Content)
    (rest : List (Content × Content)) (f : GatewayField) (e : DeError)
    (hk : gatewayFieldOfKey k = .error e) :
    findGatewayField ((k, v) :: rest) f = findGatewayField rest f := by
  simp [findGatewayField, List.find?, hk]

theorem parsedGatewayKeys_cons_err (k v : Content)
    (rest : List (Content × Content)) (e : DeError)
    (hk : gatewayFieldOfKey k = .error e) :
    parsedGatewayKeys ((k, v) :: rest) = parsedGatewayKeys rest := by
  simp [parsedGatewayKeys, hk, Except.toOption]

theorem mem_parsedGatewayKeys_of_mem (kvs : List (Content × Content))
    (k v : Content) (f : GatewayField)
    (hm : (k, v) ∈ kvs) (hk : gatewayFieldOfKey k = .ok f) :
    f ∈ parsedGatewayKeys kvs :=
  List.mem_filterMap.mpr ⟨(k, v), hm, by simp [hk, Except.toOption]⟩

theorem findGatewayField_isSome_iff (kvs : List (Content × Content))
    (f : GatewayField) :
    (findGatewayField kvs f).isSome ↔ f ∈ parsedGatewayKeys kvs := by
  induction kvs with
  | nil => simp [findGatewayField, parsedGatewayKeys]
  | cons p rest ih =>
    obtain ⟨k, v⟩ := p
    cases hk : gatewayFieldOfKey k with
    | ok f2 =>
      by_cases he : f2 = f
      · subst he
        rw [findGatewayField_cons_self k v rest f2 hk,
          parsedGatewayKeys_cons_ok k v rest f2 hk]
        simp
      · rw [findGatewayField_cons_ne k v rest f2 f hk
          (fun hh => he hh.symm),
          parsedGatewayKeys_cons_ok k v rest f2 hk, ih]
        constructor
        · exact fun hm => List.mem_cons_of_mem f2 hm
        · intro hm
          rcases List.mem_cons.mp hm with hh | hm2
          · exact absurd hh.symm he
          · exact hm2
    | error e =>
      rw [findGatewayField_cons_err k v rest f e hk,
        parsedGatewayKeys_cons_err k v rest e hk]
      exact ih

theorem findGatewayField_eq_some_of_mem (kvs : List (Content × Content))
    (f : GatewayField) (k v : Content)
    (hnd : (parsedGatewayKeys kvs).Nodup)
    (hmem : (k, v) ∈ kvs) (hk : gatewayFieldOfKey k = .ok f) :
    findGatewayField kvs f = some v := by
  induction kvs with
  | nil => cases hmem
  | cons p rest ih =>
    obtain ⟨k1, v1⟩ := p
    rcases List.mem_cons.mp hmem with hh | hrest
    · have h1 : k = k1 := congrArg Prod.fst hh
      have h2 : v = v1 := congrArg Prod.snd hh
      subst h1
      subst h2
      exact findGatewayField_cons_self k v rest f hk
    · cases hk1 : gatewayFieldOfKey k1 with
      | ok f1 =>
        rw [parsedGatewayKeys_cons_ok k1 v1 rest f1 hk1] at hnd
        have hf1 : f1 ∉ parsedGatewayKeys rest := (List.nodup_cons.mp hnd).1
        have hnd2 := (List.nodup_cons.mp hnd).2
        by_cases he : f1 = f
        · subst he
          exact absurd
            (mem_parsedGatewayKeys_of_mem rest k v f1 hrest hk) hf1
        · rw [findGatewayField_cons_ne k1 v1 rest f1 f hk1
            (fun hh => he hh.symm)]
          exact ih hnd2 hrest
      | error e =>
        rw [parsedGatewayKeys_cons_err k1 v1 rest e hk1] at hnd
        rw [findGatewayField_cons_err k1 v1 rest f e hk1]
        exact ih hnd hrest

theorem gatewayPayloadGo_clean (kvs : List (Content × Content)) :
    ∀ (op0 : Option OpCode) (d0 : Option Content)
      (s0 : Option (Option Nat)) (t0 : Option (Option EventType)),
    (∀ p ∈ kvs, entryValueOk p = true) →
    (parsedGatewayKeys kvs).Nodup →
    (∀ f, slotFilled op0 d0 s0 t0 f = true → f ∉ parsedGatewayKeys kvs) →
    gatewayPayloadGo op0 d0 s0 t0 kvs =
      gatewayPayloadFinish (op0.or (decodedOpSlot kvs))
        (d0.or (findGatewayField kvs .d)) (s0.or (decodedSSlot kvs))
        (t0.or (decodedTSlot kvs)) := by
  induction kvs with
  | nil =>
    intro op0 d0 s0 t0 hvals hnd hslots
    simp [gatewayPayloadGo, decodedOpSlot, decodedSSlot, decodedTSlot,
      findGatewayField, List.find?, Option.or]
    cases op0 <;> cases d0 <;> cases s0 <;> cases t0 <;> rfl
  | cons p rest ih =>
    intro op0 d0 s0 t0 hvals hnd hslots
    obtain ⟨k, v⟩ := p
    have hvk := hvals (k, v) (List.mem_cons_self (k, v) rest)
    have hvrest : ∀ p ∈ rest, entryValueOk p = true :=
      fun p hp => hvals p (List.mem_cons_of_mem (k, v) hp)
    cases hk : gatewayFieldOfKey k with
    | error e => simp [entryValueOk, hk] at hvk
    | ok f =>
      have hparsed := parsedGatewayKeys_cons_ok k v rest f hk
      have hndrest : (parsedGatewayKeys rest).Nodup := by
        rw [hparsed] at hnd
        exact (List.nodup_cons.mp hnd).2
      have hfnotin : f ∉ parsedGatewayKeys rest := by
        rw [hparsed] at hnd
        exact (List.nodup_cons.mp hnd).1
      have hmemf : f ∈ parsedGatewayKeys ((k, v) :: rest) := by
        rw [hparsed]
        exact List.mem_cons_self f (parsedGatewayKeys rest)
      have hslotrest : ∀ f2, slotFilled op0 d0 s0 t0 f2 = true →
          f2 ∉ parsedGatewayKeys rest := by
        intro f2 h2 hm
        exact hslots f2 h2 (by rw [hparsed]; exact List.mem_cons_of_mem f hm)
      cases f with
      | op =>
        cases hop0 : op0 with
        | some x =>
          exact absurd hmemf (hslots .op (by simp [slotFilled, hop0]))
        | none =>
          have hvid : isOkE (decodeOpCode v) = true := by
            simpa [entryValueOk, hk] using hvk
          obtain ⟨x, hx⟩ : ∃ x, decodeOpCode v = .ok x := by
            cases hdc : decodeOpCode v with
            | ok x => exact ⟨x, rfl⟩
            | error e2 =>
              rw [hdc] at hvid
              simp [isOkE] at hvid
          have hstep : gatewayPayloadGo Option.none d0 s0 t0
              ((k, v) :: rest) = gatewayPayloadGo (Option.some x) d0 s0 t0
              rest := by
            simp [gatewayPayloadGo, hk, exceptBind_ok, hx]
          rw [hstep, ih (Option.some x) d0 s0 t0 hvrest hndrest ?slots2]
          case slots2 =>
            intro f2 h2
            cases f2 with
            | op => exact hfnotin
            | d => exact hslotrest .d h2
            | s => exact hslotrest .s h2
            | t => exact hslotrest .t h2
          have hfop := findGatewayField_cons_self k v rest .op hk
          have hfd := findGatewayField_cons_ne k v rest .op .d hk
            (by intro hh; cases hh)
          have hfs := findGatewayField_cons_ne k v rest .op .s hk
            (by intro hh; cases hh)
          have hft := findGatewayField_cons_ne k v rest .op .t hk
            (by intro hh; cases hh)
          simp [decodedOpSlot, decodedSSlot, decodedTSlot, hfop, hfd, hfs,
            hft, hx, Except.toOption, Option.or]
      | d =>
        cases hd0 : d0 with
        | some x =>
          exact absurd hmemf (hslots .d (by simp [slotFilled, hd0]))
        | none =>
          have hstep : gatewayPayloadGo op0 Option.none s0 t0
              ((k, v) :: rest) = gatewayPayloadGo op0 (Option.some v) s0 t0
              rest := by
            simp [gatewayPayloadGo, hk, exceptBind_ok]
          rw [hstep, ih op0 (Option.some v) s0 t0 hvrest hndrest ?slots2]
          case slots2 =>
            intro f2 h2
            cases f2 with
            | op => exact hslotrest .op h2
            | d => exact hfnotin
            | s => exact hslotrest .s h2
            | t => exact hslotrest .t h2
          have hfd := findGatewayField_cons_self k v rest .d hk
          have hfop := findGatewayField_cons_ne k v rest .d .op hk
            (by intro hh; cases hh)
          have hfs := findGatewayField_cons_ne k v rest .d .s hk
            (by intro hh; cases hh)
          have hft := findGatewayField_cons_ne k v rest .d .t hk
            (by intro hh; cases hh)
          simp [decodedOpSlot, decodedSSlot, decodedTSlot, hfop, hfd, hfs,
            hft, Option.or]
      | s =>
        cases hs0 : s0 with
        | some x =>
          exact absurd hmemf (hslots .s (by simp [slotFilled, hs0]))
        | none =>
          have hvid : isOkE (decodeOptU64 v) = true := by
            simpa [entryValueOk, hk] using hvk
          obtain ⟨x, hx⟩ : ∃ x, decodeOptU64 v = .ok x := by
            cases hdc : decodeOptU64 v with
            | ok x => exact ⟨x, rfl⟩
            | error e2 =>
              rw [hdc] at hvid
              simp [isOkE] at hvid
          have hstep : gatewayPayloadGo op0 d0 Option.none t0
              ((k, v) :: rest) = gatewayPayloadGo op0 d0 (Option.some x) t0
              rest := by
            simp [gatewayPayloadGo, hk, exceptBind_ok, hx]
          rw [hstep, ih op0 d0 (Option.some x) t0 hvrest hndrest ?slots2]
          case slots2 =>
            intro f2 h2
            cases f2 with
            | op => exact hslotrest .op h2
            | d => exact hslotrest .d h2
            | s => exact hfnotin
            | t => exact hslotrest .t h2
          have hfs := findGatewayField_cons_self k v rest .s hk
          have hfop := findGatewayField_cons_ne k v rest .s .op hk
            (by intro hh; cases hh)
          have hfd := findGatewayField_cons_ne k v rest .s .d hk
            (by intro hh; cases hh)
          have hft := findGatewayField_cons_ne k v rest .s .t hk
            (by intro hh; cases hh)
          simp [decodedOpSlot, decodedSSlot, decodedTSlot, hfop, hfd, hfs,
            hft, hx, Except.toOption, Option.or]
      | t =>
        cases ht0 : t0 with
        | some x =>
          exact absurd hmemf (hslots .t (by simp [slotFilled, ht0]))
        | none =>
          have hvid : isOkE (decodeOptEventType v) = true := by
            simpa [entryValueOk, hk] using hvk
          obtain ⟨x, hx⟩ : ∃ x, decodeOptEventType v = .ok x := by
            cases hdc : decodeOptEventType v with
            | ok x => exact ⟨x, rfl⟩
            | error e2 =>
              rw [hdc] at hvid
              simp [isOkE] at hvid
          have hstep : gatewayPayloadGo op0 d0 s0 Option.none
              ((k, v) :: rest) = gatewayPayloadGo op0 d0 s0 (Option.some x)
              rest := by
            simp [gatewayPayloadGo, hk, exceptBind_ok, hx]
          rw [hstep, ih op0 d0 s0 (Option.some x) hvrest hndrest ?slots2]
          case slots2 =>
            intro f2 h2
            cases f2 with
            | op => exact hslotrest .op h2
            | d => exact hslotrest .d h2
            | s => exact hslotrest .s h2
            | t => exact hfnotin
          have hft := findGatewayField_cons_self k v rest .t hk
          have hfop := findGatewayField_cons_ne k v rest .t .op hk
            (by intro hh; cases hh)
          have hfd := findGatewayField_cons_ne k v rest .t .d hk
            (by intro hh; cases hh)
          have hfs := findGatewayField_cons_ne k v rest .t .s hk
            (by intro hh; cases hh)
          simp [decodedOpSlot, decodedSSlot, decodedTSlot, hfop, hfd, hfs,
            hft, hx, Except.toOption, Option.or]

theorem gatewayPayloadGo_dup (kvs : List (Content × Content)) :
    ∀ (op0 : Option OpCode) (d0 : Option Content)
      (s0 : Option (Option Nat)) (t0 : Option (Option EventType)),
    (∀ p ∈ kvs, entryValueOk p = true) →
    ¬ ((parsedGatewayKeys kvs).Nodup ∧
       ∀ f, slotFilled op0 d0 s0 t0 f = true →
         f ∉ parsedGatewayKeys kvs) →
    ∃ f, f ∈ parsedGatewayKeys kvs ∧
      gatewayPayloadGo op0 d0 s0 t0 kvs =
        .error (.duplicateField (gatewayFieldName f)) ∧
      (slotFilled op0 d0 s0 t0 f = true ∨
        2 ≤ (parsedGatewayKeys kvs).count f) := by
  induction kvs with
  | nil =>
    intro op0 d0 s0 t0 hvals hconf
    exact absurd ⟨List.nodup_nil, by simp [parsedGatewayKeys]⟩ hconf
  | cons p rest ih =>
    intro op0 d0 s0 t0 hvals hconf
    obtain ⟨k, v⟩ := p
    have hvk := hvals (k, v) (List.mem_cons_self (k, v) rest)
    have hvrest : ∀ p ∈ rest, entryValueOk p = true :=
      fun p hp => hvals p (List.mem_cons_of_mem (k, v) hp)
    cases hk : gatewayFieldOfKey k with
    | error e => simp [entryValueOk, hk] at hvk
    | ok f =>
      have hparsed := parsedGatewayKeys_cons_ok k v rest f hk
      have hmemf : f ∈ parsedGatewayKeys ((k, v) :: rest) := by
        rw [hparsed]
        exact List.mem_cons_self f (parsedGatewayKeys rest)
      cases hslot : slotFilled op0 d0 s0 t0 f with
      | true =>
        refine ⟨f, hmemf, ?_, Or.inl hslot⟩
        cases f with
        | op =>
          cases hop0 : op0 with
          | none => simp [slotFilled, hop0] at hslot
          | some x =>
            simp [gatewayPayloadGo, hk, exceptBind_ok, hop0,
              gatewayFieldName]
        | d =>
          cases hd0 : d0 with
          | none => simp [slotFilled, hd0] at hslot
          | some x =>
            simp [gatewayPayloadGo, hk, exceptBind_ok, hd0,
              gatewayFieldName]
        | s =>
          cases hs0 : s0 with
          | none => simp [slotFilled, hs0] at hslot
          | some x =>
            simp [gatewayPayloadGo, hk, exceptBind_ok, hs0,
              gatewayFieldName]
        | t =>
          cases ht0 : t0 with
          | none => simp [slotFilled, ht0] at hslot
          | some x =>
            simp [gatewayPayloadGo, hk, exceptBind_ok, ht0,
              gatewayFieldName]
      | false =>
        have hmain : ∀ (op1 : Option OpCode) (d1 : Option Content)
            (s1 : Option (Option Nat)) (t1 : Option (Option EventType)),
            gatewayPayloadGo op0 d0 s0 t0 ((k, v) :: rest) =
              gatewayPayloadGo op1 d1 s1 t1 rest →
            slotFilled op1 d1 s1 t1 f = true →
            (∀ f2, f2 ≠ f → slotFilled op1 d1 s1 t1 f2 =
              slotFilled op0 d0 s0 t0 f2) →
            ∃ f2, f2 ∈ parsedGatewayKeys ((k, v) :: rest) ∧
              gatewayPayloadGo op0 d0 s0 t0 ((k, v) :: rest) =
                .error (.duplicateField (gatewayFieldName f2)) ∧
              (slotFilled op0 d0 s0 t0 f2 = true ∨
                2 ≤ (parsedGatewayKeys ((k, v) :: rest)).count f2) := by
          intro op1 d1 s1 t1 hstep hfull hsame
          have hconf2 : ¬ ((parsedGatewayKeys rest).Nodup ∧
              ∀ f2, slotFilled op1 d1 s1 t1 f2 = true →
                f2 ∉ parsedGatewayKeys rest) := by
            intro hcl
            apply hconf
            constructor
            · rw [hparsed]
              exact List.nodup_cons.mpr ⟨hcl.2 f hfull, hcl.1⟩
            · intro f2 h2 hm
              by_cases he : f2 = f
              · rw [he, hslot] at h2
                cases h2
              · have h2n : slotFilled op1 d1 s1 t1 f2 = true := by
                  rw [hsame f2 he]
                  exact h2
                rw [hparsed] at hm
                rcases List.mem_cons.mp hm with he2 | hm2
                · exact he he2
                · exact hcl.2 f2 h2n hm2
          obtain ⟨f2, hm2, herr2, hdisj2⟩ :=
            ih op1 d1 s1 t1 hvrest hconf2
          refine ⟨f2, ?_, ?_, ?_⟩
          · rw [hparsed]
            exact List.mem_cons_of_mem f hm2
          · rw [hstep]
            exact herr2
          · rcases hdisj2 with hfill2 | hcnt2
            · by_cases he : f2 = f
              · subst he
                refine Or.inr ?_
                rw [hparsed, List.count_cons_self]
                have hpos : 0 < (parsedGatewayKeys rest).count f2 :=
                  List.count_pos_iff.mpr hm2
                omega
              · refine Or.inl ?_
                rw [← hsame f2 he]
                exact hfill2
            · refine Or.inr ?_
              rw [hparsed]
              calc 2 ≤ (parsedGatewayKeys rest).count f2 := hcnt2
                _ ≤ (f :: parsedGatewayKeys rest).count f2 :=
                  List.count_le_count_cons f2 f (parsedGatewayKeys rest)
        cases f with
        | op =>
          cases hop0 : op0 with
          | some x => simp [slotFilled, hop0] at hslot
          | none =>
            have hvid : isOkE (decodeOpCode v) = true := by
              simpa [entryValueOk, hk] using hvk
            obtain ⟨x, hx⟩ : ∃ x, decodeOpCode v = .ok x := by
              cases hdc : decodeOpCode v with
              | ok x => exact ⟨x, rfl⟩
              | error e2 =>
                rw [hdc] at hvid
                simp [isOkE] at hvid
            subst hop0
            exact hmain (Option.some x) d0 s0 t0
              (by simp [gatewayPayloadGo, hk, exceptBind_ok, hx]) rfl
              (by
                intro f2 hne
                cases f2 with
                | op => exact absurd rfl hne
                | d => rfl
                | s => rfl
                | t => rfl)
        | d =>
          cases hd0 : d0 with
          | some x => simp [slotFilled, hd0] at hslot
          | none =>
            subst hd0
            exact hmain op0 (Option.some v) s0 t0
              (by simp [gatewayPayloadGo, hk, exceptBind_ok]) rfl
              (by
                intro f2 hne
                cases f2 with
                | op => rfl
                | d => exact absurd rfl hne
                | s => rfl
                | t => rfl)
        | s =>
          cases hs0 : s0 with
          | some x => simp [slotFilled, hs0] at hslot
          | none =>
            have hvid : isOkE (decodeOptU64 v) = true := by
              simpa [entryValueOk, hk] using hvk
            obtain ⟨x, hx⟩ : ∃ x, decodeOptU64 v = .ok x := by
              cases hdc : decodeOptU64 v with
              | ok x => exact ⟨x, rfl⟩
              | error e2 =>
                rw [hdc] at hvid
                simp [isOkE] at hvid
            subst hs0
            exact hmain op0 d0 (Option.some x) t0
              (by simp [gatewayPayloadGo, hk, exceptBind_ok, hx]) rfl
              (by
                intro f2 hne
                cases f2 with
                | op => rfl
                | d => rfl
                | s => exact absurd rfl hne
                | t => rfl)
        | t =>
          cases ht0 : t0 with
          | some x => simp [slotFilled, ht0] at hslot
          | none =>
            have hvid : isOkE (decodeOptEventType v) = true := by
              simpa [entryValueOk, hk] using hvk
            obtain ⟨x, hx⟩ : ∃ x, decodeOptEventType v = .ok x := by
              cases hdc : decodeOptEventType v with
              | ok x => exact ⟨x, rfl⟩
              | error e2 =>
                rw [hdc] at hvid
                simp [isOkE] at hvid
            subst ht0
            exact hmain op0 d0 s0 (Option.some x)
              (by simp [gatewayPayloadGo, hk, exceptBind_ok, hx]) rfl
              (by
                intro f2 hne
                cases f2 with
                | op => rfl
                | d => rfl
                | s => rfl
                | t => exact absurd rfl hne)

theorem findGatewayField_none_of_not_mem (kvs : List (Content × Content))
    (f : GatewayField) (h : f ∉ parsedGatewayKeys kvs) :
    findGatewayField kvs f = Option.none := by
  cases hf : findGatewayField kvs f with
  | none => rfl
  | some c =>
    exact absurd ((findGatewayField_isSome_iff kvs f).mp (by simp [hf])) h

theorem decodedOpSlot_eq_some (kvs : List (Content × Content))
    (hvals : ∀ p ∈ kvs, entryValueOk p = true)
    (h : GatewayField.op ∈ parsedGatewayKeys kvs) :
    ∃ x, decodedOpSlot kvs = Option.some x := by
  have hs := (findGatewayField_isSome_iff kvs .op).mpr h
  cases hfind : kvs.find? (fun p =>
      match gatewayFieldOfKey p.1 with
      | .ok f2 => f2 == .op
      | .error _ => false) with
  | none => simp [findGatewayField, hfind] at hs
  | some p =>
    have hpred := List.find?_some hfind
    have hmem := List.mem_of_find?_eq_some hfind
    cases hpk : gatewayFieldOfKey p.1 with
    | error e => rw [hpk] at hpred; cases hpred
    | ok f2 =>
      rw [hpk] at hpred
      have hf2 : f2 = .op := by simpa using hpred
      subst hf2
      have hok := hvals p hmem
      rw [entryValueOk, hpk] at hok
      obtain ⟨x, hx⟩ : ∃ x, decodeOpCode p.2 = .ok x := by
        cases hdc : decodeOpCode p.2 with
        | ok x => exact ⟨x, rfl⟩
        | error e2 => rw [hdc] at hok; simp [isOkE] at hok
      exact ⟨x, by simp [decodedOpSlot, findGatewayField, hfind, hx,
        Except.toOption]⟩

theorem decodedSSlot_eq_some (kvs : List (Content × Content))
    (hvals : ∀ p ∈ kvs, entryValueOk p = true)
    (h : GatewayField.s ∈ parsedGatewayKeys kvs) :
    ∃ x, decodedSSlot kvs = Option.some x := by
  have hs := (findGatewayField_isSome_iff kvs .s).mpr h
  cases hfind : kvs.find? (fun p =>
      match gatewayFieldOfKey p.1 with
      | .ok f2 => f2 == .s
      | .error _ => false) with
  | none => simp [findGatewayField, hfind] at hs
  | some p =>
    have hpred := List.find?_some hfind
    have hmem := List.mem_of_find?_eq_some hfind
    cases hpk : gatewayFieldOfKey p.1 with
    | error e => rw [hpk] at hpred; cases hpred
    | ok f2 =>
      rw [hpk] at hpred
      have hf2 : f2 = .s := by simpa using hpred
      subst hf2
      have hok := hvals p hmem
      rw [entryValueOk, hpk] at hok
      obtain ⟨x, hx⟩ : ∃ x, decodeOptU64 p.2 = .ok x := by
        cases hdc : decodeOptU64 p.2 with
        | ok x => exact ⟨x, rfl⟩
        | error e2 => rw [hdc] at hok; simp [isOkE] at hok
      exact ⟨x, by simp [decodedSSlot, findGatewayField, hfind, hx,
        Except.toOption]⟩

theorem decodedTSlot_eq_some (kvs : List (Content × Content))
    (hvals : ∀ p ∈ kvs, entryValueOk p = true)
    (h : GatewayField.t ∈ parsedGatewayKeys kvs) :
    ∃ x, decodedTSlot kvs = Option.some x := by
  have hs := (findGatewayField_isSome_iff kvs .t).mpr h
  cases hfind : kvs.find? (fun p =>
      match gatewayFieldOfKey p.1 with
      | .ok f2 => f2 == .t
      | .error _ => false) with
  | none => simp [findGatewayField, hfind] at hs
  | some p =>
    have hpred := List.find?_some hfind
    have hmem := List.mem_of_find?_eq_some hfind
    cases hpk : gatewayFieldOfKey p.1 with
    | error e => rw [hpk] at hpred; cases hpred
    | ok f2 =>
      rw [hpk] at hpred
      have hf2 : f2 = .t := by simpa using hpred
      subst hf2
      have hok := hvals p hmem
      rw [entryValueOk, hpk] at hok
      obtain ⟨x, hx⟩ : ∃ x, decodeOptEventType p.2 = .ok x := by
        cases hdc : decodeOptEventType p.2 with
        | ok x => exact ⟨x, rfl⟩
        | error e2 => rw [hdc] at hok; simp [isOkE] at hok
      exact ⟨x, by simp [decodedTSlot, findGatewayField, hfind, hx,
        Except.toOption]⟩

theorem gatewayPayloadVisitMap_characterization
    (kvs : List (Content × Content))
    (hvals : ∀ p ∈ kvs, entryValueOk p = true)
    (hnd : (parsedGatewayKeys kvs).Nodup) :
    gatewayPayloadVisitMap kvs =
      gatewayPayloadFinish (decodedOpSlot kvs) (findGatewayField kvs .d)
        (decodedSSlot kvs) (decodedTSlot kvs) := by
  have h := gatewayPayloadGo_clean kvs Option.none Option.none Option.none
    Option.none hvals hnd
    (by intro f hf; cases f <;> simp [slotFilled] at hf)
  simpa [gatewayPayloadVisitMap, Option.or] using h

theorem findGatewayField_perm (kvs kvs2 : List (Content × Content))
    (hperm : kvs.Perm kvs2) (hnd : (parsedGatewayKeys kvs).Nodup)
    (f : GatewayField) :
    findGatewayField kvs f = findGatewayField kvs2 f := by
  have hpp : (parsedGatewayKeys kvs).Perm (parsedGatewayKeys kvs2) :=
    hperm.filterMap _
  have hnd2 : (parsedGatewayKeys kvs2).Nodup := hpp.nodup_iff.mp hnd
  cases hf : findGatewayField kvs f with
  | none =>
    have hnm : f ∉ parsedGatewayKeys kvs := by
      intro hm
      have := (findGatewayField_isSome_iff kvs f).mpr hm
      rw [hf] at this
      cases this
    have hnm2 : f ∉ parsedGatewayKeys kvs2 :=
      fun hm => hnm (hpp.mem_iff.mpr hm)
    rw [findGatewayField_none_of_not_mem kvs2 f hnm2]
  | some v =>
    cases hfind : kvs.find? (fun p =>
        match gatewayFieldOfKey p.1 with
        | .ok f2 => f2 == f
        | .error _ => false) with
    | none => simp [findGatewayField, hfind] at hf
    | some p =>
      have hv : p.2 = v := by simpa [findGatewayField, hfind] using hf
      have hpred := List.find?_some hfind
      have hmem := List.mem_of_find?_eq_some hfind
      cases hpk : gatewayFieldOfKey p.1 with
      | error e => rw [hpk] at hpred; cases hpred
      | ok f2 =>
        rw [hpk] at hpred
        have hf2 : f2 = f := by simpa using hpred
        subst hf2
        have hmem2 : (p.1, p.2) ∈ kvs2 := hperm.mem_iff.mp (by
          simpa using hmem)
        rw [findGatewayField_eq_some_of_mem kvs2 f2 p.1 p.2 hnd2 hmem2 hpk,
          hv]

/-- C8: the primary envelope record is decoded field-by-field
regardless of field order — for well-formed envelopes (canonical keys
with decodable values, no repeats) any permutation decodes identically,
and the decoded record's fields are matched by the canonical names
`op`, `d`, `s`, `t` — a duplicated field is a decode error naming that
field, and a missing one of the four required fields is a decode error
naming the missing field (checked in the order `op`, `d`, `s`, `t`). -/
theorem C8_envelope_field_by_field :
    (∀ kvs kvs2 : List (Content × Content), kvs.Perm kvs2 →
      (∀ p ∈ kvs, entryValueOk p = true) →
      (parsedGatewayKeys kvs).Nodup →
      gatewayPayloadVisitMap kvs = gatewayPayloadVisitMap kvs2) ∧
    (∀ kvs : List (Content × Content),
      (∀ p ∈ kvs, entryValueOk p = true) →
      ¬ (parsedGatewayKeys kvs).Nodup →
      ∃ f, 2 ≤ (parsedGatewayKeys kvs).count f ∧
        gatewayPayloadVisitMap kvs =
          .error (.duplicateField (gatewayFieldName f))) ∧
    (∀ kvs : List (Content × Content),
      (∀ p ∈ kvs, entryValueOk p = true) →
      (parsedGatewayKeys kvs).Nodup →
      (GatewayField.op ∉ parsedGatewayKeys kvs →
        gatewayPayloadVisitMap kvs = .error (.missingField "op")) ∧
      (GatewayField.op ∈ parsedGatewayKeys kvs →
        GatewayField.d ∉ parsedGatewayKeys kvs →
        gatewayPayloadVisitMap kvs = .error (.missingField "d")) ∧
      (GatewayField.op ∈ parsedGatewayKeys kvs →
        GatewayField.d ∈ parsedGatewayKeys kvs →
        GatewayField.s ∉ parsedGatewayKeys kvs →
        gatewayPayloadVisitMap kvs = .error (.missingField "s")) ∧
      (GatewayField.op ∈ parsedGatewayKeys kvs →
        GatewayField.d ∈ parsedGatewayKeys kvs →
        GatewayField.s ∈ parsedGatewayKeys kvs →
        GatewayField.t ∉ parsedGatewayKeys kvs →
        gatewayPayloadVisitMap kvs = .error (.missingField "t"))) ∧
    (∀ kvs : List (Content × Content),
      (∀ p ∈ kvs, entryValueOk p = true) →
      (parsedGatewayKeys kvs).Nodup →
      (∀ f : GatewayField, f ∈ parsedGatewayKeys kvs) →
      ∃ P : GatewayPayload, gatewayPayloadVisitMap kvs = .ok P ∧
        findGatewayField kvs .d = some P.data ∧
        (∀ c, findGatewayField kvs .op = some c →
          decodeOpCode c = .ok P.opcode) ∧
        (∀ c, findGatewayField kvs .s = some c →
          decodeOptU64 c = .ok P.sequence) ∧
        (∀ c, findGatewayField kvs .t = some c →
          decodeOptEventType c = .ok P.eventType)) := by
  refine ⟨?_, ?_, ?_, ?_⟩
  · intro kvs kvs2 hperm hvals hnd
    have hvals2 : ∀ p ∈ kvs2, entryValueOk p = true :=
      fun p hp => hvals p (hperm.mem_iff.mpr hp)
    have hpp : (parsedGatewayKeys kvs).Perm (parsedGatewayKeys kvs2) :=
      hperm.filterMap _
    have hnd2 := hpp.nodup_iff.mp hnd
    rw [gatewayPayloadVisitMap_characterization kvs hvals hnd,
      gatewayPayloadVisitMap_characterization kvs2 hvals2 hnd2]
    have h1 := findGatewayField_perm kvs kvs2 hperm hnd .op
    have h2 := findGatewayField_perm kvs kvs2 hperm hnd .d
    have h3 := findGatewayField_perm kvs kvs2 hperm hnd .s
    have h4 := findGatewayField_perm kvs kvs2 hperm hnd .t
    rw [decodedOpSlot, decodedSSlot, decodedTSlot, decodedOpSlot,
      decodedSSlot, decodedTSlot, h1, h2, h3, h4]
  · intro kvs hvals hndneg
    obtain ⟨f, hmem, herr, hdisj⟩ := gatewayPayloadGo_dup kvs
      Option.none Option.none Option.none Option.none hvals
      (fun hcl => hndneg hcl.1)
    refine ⟨f, ?_, herr⟩
    rcases hdisj with hfill | hcnt
    · cases f <;> simp [slotFilled] at hfill
    · exact hcnt
  · intro kvs hvals hnd
    have hchar := gatewayPayloadVisitMap_characterization kvs hvals hnd
    refine ⟨?_, ?_, ?_, ?_⟩
    · intro hop
      have h1 : decodedOpSlot kvs = Option.none := by
        rw [decodedOpSlot, findGatewayField_none_of_not_mem kvs .op hop]
        rfl
      rw [hchar]
      simp [gatewayPayloadFinish, h1]
    · intro hop hd
      obtain ⟨x, hx⟩ := decodedOpSlot_eq_some kvs hvals hop
      rw [hchar]
      simp [gatewayPayloadFinish, hx,
        findGatewayField_none_of_not_mem kvs .d hd]
    · intro hop hd hs
      obtain ⟨x, hx⟩ := decodedOpSlot_eq_some kvs hvals hop
      obtain ⟨dc, hdc⟩ := Option.isSome_iff_exists.mp
        ((findGatewayField_isSome_iff kvs .d).mpr hd)
      have hsn : decodedSSlot kvs = Option.none := by
        rw [decodedSSlot, findGatewayField_none_of_not_mem kvs .s hs]
        rfl
      rw [hchar]
      simp [gatewayPayloadFinish, hx, hdc, hsn]
    · intro hop hd hs ht
      obtain ⟨x, hx⟩ := decodedOpSlot_eq_some kvs hvals hop
      obtain ⟨dc, hdc⟩ := Option.isSome_iff_exists.mp
        ((findGatewayField_isSome_iff kvs .d).mpr hd)
      obtain ⟨sx, hsx⟩ := decodedSSlot_eq_some kvs hvals hs
      have htn : decodedTSlot kvs = Option.none := by
        rw [decodedTSlot, findGatewayField_none_of_not_mem kvs .t ht]
        rfl
      rw [hchar]
      simp [gatewayPayloadFinish, hx, hdc, hsx, htn]
  · intro kvs hvals hnd hall
    obtain ⟨x, hx⟩ := decodedOpSlot_eq_some kvs hvals (hall .op)
    obtain ⟨dc, hdc⟩ := Option.isSome_iff_exists.mp
      ((findGatewayField_isSome_iff kvs .d).mpr (hall .d))
    obtain ⟨sx, hsx⟩ := decodedSSlot_eq_some kvs hvals (hall .s)
    obtain ⟨tx, htx⟩ := decodedTSlot_eq_some kvs hvals (hall .t)
    refine ⟨⟨x, dc, sx, tx⟩, ?_, hdc, ?_, ?_, ?_⟩
    · rw [gatewayPayloadVisitMap_characterization kvs hvals hnd, hx, hdc,
        hsx, htx]
      rfl
    · intro c hc
      have hh : (decodeOpCode c).toOption = Option.some x := by
        rw [← hx, decodedOpSlot, hc]
        rfl
      cases hcc : decodeOpCode c with
      | ok y =>
        rw [hcc] at hh
        simp [Except.toOption] at hh
        rw [hh]
      | error e =>
        rw [hcc] at hh
        simp [Except.toOption] at hh
    · intro c hc
      have hh : (decodeOptU64 c).toOption = Option.some sx := by
        rw [← hsx, decodedSSlot, hc]
        rfl
      cases hcc : decodeOptU64 c with
      | ok y =>
        rw [hcc] at hh
        simp [Except.toOption] at hh
        rw [hh]
      | error e =>
        rw [hcc] at hh
        simp [Except.toOption] at hh
    · intro c hc
      have hh : (decodeOptEventType c).toOption = Option.some tx := by
        rw [← htx, decodedTSlot, hc]
        rfl
      cases hcc : decodeOptEventType c with
      | ok y =>
        rw [hcc] at hh
        simp [Except.toOption] at hh
        rw [hh]
      | error e =>
        rw [hcc] at hh
        simp [Except.toOption] at hh

/-- Witness for C8: a scrambled heartbeat-ack envelope equals its
reordering, and an envelope with only `op` is missing `d`. -/
theorem C8_envelope_field_by_field_witness :
    gatewayPayloadVisitMap
        [(.str "op", .u64 11), (.str "d", .unit), (.str "s", .none),
          (.str "t", .none)] =
      gatewayPayloadVisitMap
        [(.str "d", .unit), (.str "op", .u64 11), (.str "s", .none),
          (.str "t", .none)] ∧
    gatewayPayloadVisitMap [(.str "op", .u64 11)] =
      .error (.missingField "d") :=
  ⟨C8_envelope_field_by_field.1 _ _
      (List.Perm.swap (Content.str "d", Content.unit)
        (Content.str "op", Content.u64 11) _)
      (by decide) (by decide),
    (C8_envelope_field_by_field.2.2.1 [(.str "op", .u64 11)]
      (by decide) (by decide)).2.1 (by decide) (by decide)⟩

end Serenity
